import Mathlib

/-!
Verification of the CryptoAI trading-bot core against its specification.

The definitions below are a shallow embedding of the Python source:
  * `src/src/analysis/analysis.py`  — indicator library, signal fusion,
    multi-timeframe filter, exit (exhaustion) evaluation;
  * `src/src/utils/risk_manager.py` — the risk ledger;
  * `src/src/utils/data.py`         — the real-time stream manager.

Price/volume floats are modelled as exact rationals (`ℚ`); the only
genuinely irrational operation in the source — the rolling standard
deviation used by the Bollinger bands — is modelled as `Real.sqrt` of a
rational variance, so the Bollinger analysis and everything downstream of
it lives in `ℝ`.  The IEEE special values that the RSI computation can
produce (`inf` from division by a zero average loss, `NaN` from `0/0`)
are modelled explicitly by the small type `FQ`.  Python `datetime`s are
modelled as whole seconds (`ℕ`).
-/

namespace CryptoAI

/-- Signal direction, as the strings 'COMPRAR' / 'VENDER' / 'NEUTRO'. -/
inductive Sig | COMPRAR | VENDER | NEUTRO
deriving DecidableEq, Repr

/-- Result of one indicator analysis: a direction and a strength.
The human-readable `description` strings of the source are dropped. -/
structure IndRes where
  signal : Sig
  strength : ℚ
deriving DecidableEq, Repr

/-- A float that may be NaN or +inf — the values the RSI pipeline can
produce from `gain / loss` when the rolling average loss is zero. -/
inductive FQ
  | nan
  | inf
  | val (q : ℚ)
deriving DecidableEq, Repr

/-! ### Configuration constants (config/settings.py) -/

def RSI_PERIOD : ℕ := 7
def RSI_OVERSOLD : ℚ := 20
def RSI_OVERBOUGHT : ℚ := 80
def RSI_WEIGHT : ℚ := 1/4
def MACD_FAST : ℕ := 5
def MACD_SLOW : ℕ := 13
def MACD_SIGNAL : ℕ := 6
def MACD_WEIGHT : ℚ := 1/4
def BB_PERIOD : ℕ := 14
def BB_STD : ℚ := 2
def BB_WEIGHT : ℚ := 1/4
def EMA_SHORT : ℕ := 7
def EMA_LONG : ℕ := 14
def EMA_FILTER : ℕ := 100
def EMA_WEIGHT : ℚ := 1/4
def INTEGRATED_SIGNAL_THRESHOLD_BUY : ℚ := 15/100
def INTEGRATED_SIGNAL_THRESHOLD_SELL : ℚ := -(15/100)
def CONFIDENCE_MULTIPLIER : ℚ := 2
def EXIT_CONFIDENCE_THRESHOLD : ℚ := 4/10
def EXIT_CONFIRMATION_THRESHOLD : ℚ := 6/10
def RSI_CRITICAL_STRENGTH : ℚ := 6/10
def MIN_DATA_BUFFER : ℕ := 3
def FALLBACK_EMA_FILTER : ℕ := 30
def MOMENTUM_EXHAUSTION_PERIOD : ℕ := 5
def VOLUME_AVERAGE_PERIOD_MINUTES : ℕ := 20
def VOLUME_DECLINE_THRESHOLD : ℚ := 1/2
def MAX_CONCURRENT_TRADES : ℕ := 10
def MAX_DAILY_LOSS : ℚ := 20
def MAX_POSITION_SIZE_PCT : ℚ := 10
def STOP_LOSS_PCT : ℚ := 1
def TAKE_PROFIT_PCT : ℚ := 5
def INITIAL_BALANCE : ℚ := 100

/-! ### Small list helpers (pandas rolling / ewm primitives) -/

/-- Arithmetic mean of a rational list (`Series.mean` over a full window). -/
def listMean (xs : List ℚ) : ℚ := xs.sum / xs.length

/-- `pandas.Series.ewm(span).mean()` with the default `adjust=True`:
`y_t = (x_t + (1-α) x_{t-1} + ...) / (1 + (1-α) + ...)`, computed by the
running numerator/denominator recursion. -/
def ewmAux (alpha : ℚ) : ℚ → ℚ → List ℚ → List ℚ
  | _, _, [] => []
  | num, den, x :: xs =>
    let num' := x + (1 - alpha) * num
    let den' := 1 + (1 - alpha) * den
    (num' / den') :: ewmAux alpha num' den' xs

def ewmAdjusted (alpha : ℚ) (xs : List ℚ) : List ℚ := ewmAux alpha 0 0 xs

/-- `ewm(span=s)`: `α = 2 / (s + 1)`. -/
def ewmSpan (span : ℕ) (xs : List ℚ) : List ℚ :=
  ewmAdjusted (2 / (span + 1)) xs

/-- Consecutive differences, `Series.diff()` without the leading NaN:
`deltas[i] = xs[i+1] - xs[i]`. -/
def deltasOf : List ℚ → List ℚ
  | x :: y :: rest => (y - x) :: deltasOf (y :: rest)
  | _ => []

/-- Last element of a rational series (callers guard non-emptiness the
same way the source guards against NaN / empty series). -/
def lastD (xs : List ℚ) (d : ℚ) : ℚ := xs.getLast? |>.getD d

/-- Second-to-last element (`iloc[-2]`). -/
def last2D (xs : List ℚ) (d : ℚ) : ℚ := lastD (xs.dropLast) d

/-- `iloc[-k]` (k-th element from the end), default `d`. -/
def lastNthD (xs : List ℚ) (k : ℕ) (d : ℚ) : ℚ :=
  if h : k ≤ xs.length ∧ 0 < k then xs.get ⟨xs.length - k, by omega⟩ else d

/-- One market bar as used by the analysis module (high, low, close,
volume are the columns the analysed functions read). -/
structure MBar where
  high : ℚ
  low : ℚ
  close : ℚ
  volume : ℚ
deriving DecidableEq, Repr

def closesOf (bars : List MBar) : List ℚ := bars.map MBar.close

/-! ### calculate_rsi (analysis.py, lines 526-537)

`delta.where(delta > 0, 0)` keeps positive deltas and maps everything
else — including the leading NaN that `diff()` produces — to 0, so the
gain/loss series start with an artificial 0.  The rolling mean of the
last `period` entries is NaN iff fewer than `period` entries exist.
`rs = gain/loss` follows IEEE semantics: `x/0 = inf` for `x > 0` and
`0/0 = NaN`; `rsi = 100 - 100/(1+rs)` maps `inf` to `100` and NaN to
NaN. -/

def gainsSeries (closes : List ℚ) : List ℚ :=
  0 :: (deltasOf closes).map (fun d => if d > 0 then d else 0)

def lossesSeries (closes : List ℚ) : List ℚ :=
  0 :: (deltasOf closes).map (fun d => if d < 0 then -d else 0)

/-- The rolling mean of gains at the last position (`gain.iloc[-1]`). -/
def avgGainLast (closes : List ℚ) (period : ℕ) : ℚ :=
  listMean ((gainsSeries closes).drop ((gainsSeries closes).length - period))

/-- The rolling mean of losses at the last position (`loss.iloc[-1]`). -/
def avgLossLast (closes : List ℚ) (period : ℕ) : ℚ :=
  listMean ((lossesSeries closes).drop ((lossesSeries closes).length - period))

/-- Last value of the RSI series. -/
def calculate_rsi_last (closes : List ℚ) (period : ℕ := RSI_PERIOD) : FQ :=
  if (gainsSeries closes).length < period ∨ period = 0 then FQ.nan
  else
    let gain := avgGainLast closes period
    let loss := avgLossLast closes period
    if loss = 0 then
      if gain = 0 then FQ.nan       -- rs = 0/0 = NaN, rsi = NaN
      else FQ.val 100               -- rs = inf, rsi = 100 - 100/(1+inf) = 100
    else FQ.val (100 - 100 / (1 + gain / loss))

/-- analyze_rsi_signal (analysis.py, lines 598-618). -/
def analyze_rsi_signal (rsi_value : FQ) : IndRes :=
  match rsi_value with
  | FQ.nan => ⟨Sig.NEUTRO, 0⟩                 -- np.isnan guard
  | FQ.inf => ⟨Sig.VENDER, 1⟩                 -- min((inf-80)/20, 1.0) = 1.0
  | FQ.val q =>
    if q ≤ RSI_OVERSOLD then
      ⟨Sig.COMPRAR, min ((RSI_OVERSOLD - q) / RSI_OVERSOLD) 1⟩
    else if q ≥ RSI_OVERBOUGHT then
      ⟨Sig.VENDER, min ((q - RSI_OVERBOUGHT) / (100 - RSI_OVERBOUGHT)) 1⟩
    else ⟨Sig.NEUTRO, 0⟩

/-! ### calculate_macd (lines 539-558) and analyze_macd_signal (620-665) -/

structure MacdData where
  macd : List ℚ
  signal : List ℚ
  histogram : List ℚ
deriving Repr

def calculate_macd (closes : List ℚ) (fast : ℕ := MACD_FAST)
    (slow : ℕ := MACD_SLOW) (sig : ℕ := MACD_SIGNAL) : MacdData :=
  let ema_fast := ewmSpan fast closes
  let ema_slow := ewmSpan slow closes
  let macd_line := List.zipWith (· - ·) ema_fast ema_slow
  let signal_line := ewmSpan sig macd_line
  let histogram := List.zipWith (· - ·) macd_line signal_line
  ⟨macd_line, signal_line, histogram⟩

def analyze_macd_signal (m : MacdData) : IndRes :=
  if m.macd.length < 2 then ⟨Sig.NEUTRO, 0⟩
  else
    let current_macd := lastD m.macd 0
    let current_signal := lastD m.signal 0
    let previous_macd := last2D m.macd 0
    let previous_signal := last2D m.signal 0
    let histogram := lastD m.histogram 0
    if previous_macd ≤ previous_signal ∧ current_macd > current_signal then
      ⟨Sig.COMPRAR, min (if current_macd ≠ 0 then |histogram| / |current_macd| else 0) 1⟩
    else if previous_macd ≥ previous_signal ∧ current_macd < current_signal then
      ⟨Sig.VENDER, min (if current_macd ≠ 0 then |histogram| / |current_macd| else 0) 1⟩
    else if histogram > 0 then
      ⟨Sig.COMPRAR, min (if current_macd ≠ 0 then histogram / |current_macd| else 0) (1/2)⟩
    else if histogram < 0 then
      ⟨Sig.VENDER, min (if current_macd ≠ 0 then |histogram| / |current_macd| else 0) (1/2)⟩
    else ⟨Sig.NEUTRO, 0⟩

/-! ### calculate_bollinger_bands (560-577) and analyze_bollinger_signal (667-703)

The rolling standard deviation (pandas `ddof = 1`) is the square root of
a rational sample variance; the bands therefore live in `ℝ`.  The last
band values are NaN iff the series is shorter than the window, which we
model as `Option`: `none` covers both the empty-series guard and the
NaN-bands guard of the source (each returns the neutral result). -/

/-- Sample variance (ddof = 1) of the last `period` closes. -/
def rollingVarLast (closes : List ℚ) (period : ℕ) : ℚ :=
  let w := closes.drop (closes.length - period)
  let m := listMean w
  (w.map (fun x => (x - m) ^ 2)).sum / (period - 1 : ℕ)

structure BBLast where
  upper : ℝ
  middle : ℝ
  lower : ℝ

noncomputable def calculate_bollinger_bands_last (closes : List ℚ)
    (period : ℕ := BB_PERIOD) (std_dev : ℚ := BB_STD) : Option BBLast :=
  if closes.length < period ∨ period = 0 then none
  else
    let sma : ℝ := (listMean (closes.drop (closes.length - period)) : ℚ)
    let std : ℝ := Real.sqrt ((rollingVarLast closes period : ℚ) : ℝ)
    some ⟨sma + std * (std_dev : ℝ), sma, sma - std * (std_dev : ℝ)⟩

/-- Bollinger indicator result: the strength is real-valued because the
band geometry is. -/
structure IndResR where
  signal : Sig
  strength : ℝ

open Classical in
noncomputable def analyze_bollinger_signal (current_price : ℚ)
    (bb : Option BBLast) : IndResR :=
  match bb with
  | none => ⟨Sig.NEUTRO, 0⟩          -- empty series or NaN bands
  | some b =>
    let band_width := b.upper - b.lower
    if (current_price : ℝ) ≤ b.lower then
      ⟨Sig.COMPRAR,
        min ((if band_width > 0 then (b.lower - current_price) / band_width else 0) * 2) 1⟩
    else if (current_price : ℝ) ≥ b.upper then
      ⟨Sig.VENDER,
        min ((if band_width > 0 then ((current_price : ℝ) - b.upper) / band_width else 0) * 2) 1⟩
    else if |(current_price : ℝ) - b.middle| / band_width < 1/10 then
      ⟨Sig.NEUTRO, 0⟩
    else ⟨Sig.NEUTRO, 0⟩

/-! ### calculate_ema (579-596) and analyze_ema_signal (705-758) -/

structure EmaData where
  ema_short : List ℚ
  ema_long : List ℚ
  ema_filter : List ℚ
deriving Repr

def calculate_ema (closes : List ℚ) (short : ℕ := EMA_SHORT)
    (long : ℕ := EMA_LONG) (filter_period : ℕ := EMA_FILTER) : EmaData :=
  ⟨ewmSpan short closes, ewmSpan long closes, ewmSpan filter_period closes⟩

def analyze_ema_signal (current_price : ℚ) (e : EmaData) : IndRes :=
  if e.ema_short.length < 2 then ⟨Sig.NEUTRO, 0⟩
  else
    let sc := lastD e.ema_short 0
    let lc := lastD e.ema_long 0
    let fc := lastD e.ema_filter 0
    let sp := last2D e.ema_short 0
    let lp := last2D e.ema_long 0
    if sp ≤ lp ∧ sc > lc then
      if current_price > fc then ⟨Sig.COMPRAR, |min ((sc - lc) / lc) 1|⟩
      else -- golden cross unconfirmed: falls through to the position checks
        if sc > lc ∧ lc > fc then ⟨Sig.COMPRAR, |min ((sc - lc) / lc * (1/2)) (1/2)|⟩
        else if sc < lc ∧ lc < fc then ⟨Sig.VENDER, |min ((lc - sc) / lc * (1/2)) (1/2)|⟩
        else ⟨Sig.NEUTRO, 0⟩
    else if sp ≥ lp ∧ sc < lc then
      if current_price < fc then ⟨Sig.VENDER, |min ((lc - sc) / lc) 1|⟩
      else
        if sc > lc ∧ lc > fc then ⟨Sig.COMPRAR, |min ((sc - lc) / lc * (1/2)) (1/2)|⟩
        else if sc < lc ∧ lc < fc then ⟨Sig.VENDER, |min ((lc - sc) / lc * (1/2)) (1/2)|⟩
        else ⟨Sig.NEUTRO, 0⟩
    else
      if sc > lc ∧ lc > fc then ⟨Sig.COMPRAR, |min ((sc - lc) / lc * (1/2)) (1/2)|⟩
      else if sc < lc ∧ lc < fc then ⟨Sig.VENDER, |min ((lc - sc) / lc * (1/2)) (1/2)|⟩
      else ⟨Sig.NEUTRO, 0⟩

/-! ### calculate_integrated_signal (analysis.py, lines 760-861) -/

/-- The four per-indicator results the composite carries in its
`indicators` dict. -/
structure IndicatorSet where
  rsi : IndRes
  macd : IndRes
  bb : IndResR
  ema : IndRes

/-- Composite signal: `indicators` is `none` exactly in the
insufficient-data branch (the source returns an empty dict there). -/
structure Composite where
  signal : Sig
  confidence : ℝ
  indicators : Option IndicatorSet
  weighted_score : ℝ

/-- `max(RSI_PERIOD, MACD_SLOW, BB_PERIOD, FALLBACK_EMA_FILTER) + MIN_DATA_BUFFER`. -/
def min_required : ℕ :=
  max (max RSI_PERIOD MACD_SLOW) (max BB_PERIOD FALLBACK_EMA_FILTER) + MIN_DATA_BUFFER

/-- Signed contribution of one indicator: `+w*s` for BUY, `-w*s` for
SELL, nothing for NEUTRAL. -/
def contrib (w : ℚ) (r : IndRes) : ℚ :=
  match r.signal with
  | Sig.COMPRAR => w * r.strength
  | Sig.VENDER => -(w * r.strength)
  | Sig.NEUTRO => 0

noncomputable def contribR (w : ℚ) (r : IndResR) : ℝ :=
  match r.signal with
  | Sig.COMPRAR => (w : ℝ) * r.strength
  | Sig.VENDER => -((w : ℝ) * r.strength)
  | Sig.NEUTRO => 0

/-- The four indicator analyses exactly as `calculate_integrated_signal`
invokes them (`current_price = closes.iloc[-1]`). -/
def rsiRes (closes : List ℚ) : IndRes :=
  analyze_rsi_signal (calculate_rsi_last closes)

def macdRes (closes : List ℚ) : IndRes :=
  analyze_macd_signal (calculate_macd closes)

noncomputable def bbRes (closes : List ℚ) : IndResR :=
  analyze_bollinger_signal (lastD closes 0) (calculate_bollinger_bands_last closes)

def emaRes (closes : List ℚ) : IndRes :=
  analyze_ema_signal (lastD closes 0) (calculate_ema closes)

/-- The weighted score, summed in the source's dict order:
RSI, MACD, BB, EMA. -/
noncomputable def integratedScore (closes : List ℚ) : ℝ :=
  ((contrib RSI_WEIGHT (rsiRes closes) + contrib MACD_WEIGHT (macdRes closes) : ℚ) : ℝ)
    + contribR BB_WEIGHT (bbRes closes)
    + ((contrib EMA_WEIGHT (emaRes closes) : ℚ) : ℝ)

open Classical in
noncomputable def calculate_integrated_signal (market_data : List MBar) : Composite :=
  if market_data.length < min_required then
    ⟨Sig.NEUTRO, 0, none, 0⟩
  else
    let closes := closesOf market_data
    let inds : IndicatorSet := ⟨rsiRes closes, macdRes closes, bbRes closes, emaRes closes⟩
    if integratedScore closes > (INTEGRATED_SIGNAL_THRESHOLD_BUY : ℝ) then
      ⟨Sig.COMPRAR, min (integratedScore closes * (CONFIDENCE_MULTIPLIER : ℝ)) 1,
        some inds, integratedScore closes⟩
    else if integratedScore closes < (INTEGRATED_SIGNAL_THRESHOLD_SELL : ℝ) then
      ⟨Sig.VENDER, min (|integratedScore closes| * (CONFIDENCE_MULTIPLIER : ℝ)) 1,
        some inds, integratedScore closes⟩
    else
      ⟨Sig.NEUTRO, 0, some inds, integratedScore closes⟩

/-! ### analyze_higher_timeframe_trend (analysis.py, lines 328-411) -/

inductive Trend | BULLISH | BEARISH | SIDEWAYS
deriving DecidableEq, Repr

inductive PriceVsEma | ABOVE | BELOW | NEUTRAL
deriving DecidableEq, Repr

inductive EmaSlope | UP | DOWN | FLAT
deriving DecidableEq, Repr

structure TrendFilter where
  trend : Trend
  strength : ℚ
  price_vs_ema : PriceVsEma
  ema_slope : EmaSlope
  support_level : ℚ
  resistance_level : ℚ
deriving DecidableEq, Repr

def analyze_higher_timeframe_trend (confirmation_data : List MBar) : TrendFilter :=
  if confirmation_data.length < EMA_FILTER + 10 then
    ⟨Trend.SIDEWAYS, 0, PriceVsEma.NEUTRAL, EmaSlope.FLAT, 0, 0⟩
  else
    let closes := closesOf confirmation_data
    let current_price := lastD closes 0
    let ema_trend := ewmSpan EMA_FILTER closes
    let current_ema := lastD ema_trend 0
    let previous_ema := lastNthD ema_trend 10 0
    let price_vs_ema_pct := (current_price - current_ema) / current_ema
    let price_vs_ema :=
      if price_vs_ema_pct > 2/1000 then PriceVsEma.ABOVE
      else if price_vs_ema_pct < -(2/1000) then PriceVsEma.BELOW
      else PriceVsEma.NEUTRAL
    let ema_slope_pct := (current_ema - previous_ema) / previous_ema
    let ema_slope :=
      if ema_slope_pct > 1/1000 then EmaSlope.UP
      else if ema_slope_pct < -(1/1000) then EmaSlope.DOWN
      else EmaSlope.FLAT
    let td : Trend × ℚ :=
      if price_vs_ema = PriceVsEma.ABOVE ∧ ema_slope = EmaSlope.UP then
        (Trend.BULLISH, min (|price_vs_ema_pct| + |ema_slope_pct|) 1)
      else if price_vs_ema = PriceVsEma.BELOW ∧ ema_slope = EmaSlope.DOWN then
        (Trend.BEARISH, min (|price_vs_ema_pct| + |ema_slope_pct|) 1)
      else if price_vs_ema = PriceVsEma.ABOVE ∨ ema_slope = EmaSlope.UP then
        (Trend.BULLISH, min ((|price_vs_ema_pct| + |ema_slope_pct|) * (1/2)) (7/10))
      else if price_vs_ema = PriceVsEma.BELOW ∨ ema_slope = EmaSlope.DOWN then
        (Trend.BEARISH, min ((|price_vs_ema_pct| + |ema_slope_pct|) * (1/2)) (7/10))
      else (Trend.SIDEWAYS, 0)
    let recent := confirmation_data.drop (confirmation_data.length - 20)
    let support := ((recent.map MBar.low).min?).getD 0
    let resistance := ((recent.map MBar.high).max?).getD 0
    ⟨td.1, td.2, price_vs_ema, ema_slope, support, resistance⟩

/-! ### calculate_multi_timeframe_signal (analysis.py, lines 413-520) -/

/-- The `multi_data` dict handed to the MTA filter; the source guards
`not multi_data or 'primary' not in multi_data`, modelled as `Option`. -/
structure MultiData where
  primary : List MBar
  secondary : List MBar
  confirmation : List MBar

structure MtaResult where
  signal : Sig
  confidence : ℝ
  mta_approved : Bool

open Classical in
noncomputable def calculate_multi_timeframe_signal (multi_data : Option MultiData) : MtaResult :=
  match multi_data with
  | none => ⟨Sig.NEUTRO, 0, false⟩       -- 'AGUARDAR' on missing data
  | some md =>
    let primary_analysis := calculate_integrated_signal md.primary
    let trend_filter := analyze_higher_timeframe_trend md.confirmation
    let secondary_analysis := calculate_integrated_signal md.secondary
    if primary_analysis.signal = Sig.COMPRAR then
      if trend_filter.trend = Trend.BULLISH ∨ trend_filter.trend = Trend.SIDEWAYS then
        if secondary_analysis.signal = Sig.COMPRAR then
          ⟨Sig.COMPRAR, min (primary_analysis.confidence * (12/10 : ℝ)) 1, true⟩
        else if trend_filter.trend = Trend.BULLISH ∧ trend_filter.strength > 3/10 then
          ⟨Sig.COMPRAR, primary_analysis.confidence, true⟩
        else if trend_filter.price_vs_ema = PriceVsEma.ABOVE then
          ⟨Sig.COMPRAR, primary_analysis.confidence * (8/10 : ℝ), true⟩
        else ⟨Sig.NEUTRO, 0, false⟩
      else ⟨Sig.NEUTRO, 0, false⟩
    else if primary_analysis.signal = Sig.VENDER then
      if trend_filter.trend = Trend.BEARISH ∨ trend_filter.trend = Trend.SIDEWAYS then
        if secondary_analysis.signal = Sig.VENDER then
          ⟨Sig.VENDER, min (primary_analysis.confidence * (12/10 : ℝ)) 1, true⟩
        else if trend_filter.trend = Trend.BEARISH ∧ trend_filter.strength > 3/10 then
          ⟨Sig.VENDER, primary_analysis.confidence, true⟩
        else if trend_filter.price_vs_ema = PriceVsEma.BELOW then
          ⟨Sig.VENDER, primary_analysis.confidence * (8/10 : ℝ), true⟩
        else ⟨Sig.NEUTRO, 0, false⟩
      else ⟨Sig.NEUTRO, 0, false⟩
    else ⟨Sig.NEUTRO, 0, false⟩

/-! ### detect_momentum_exhaustion (analysis.py, lines 1704-1739) -/

def detect_momentum_exhaustion (market_data : List MBar) (position_side : String) : Bool :=
  let n := market_data.length
  if n < MOMENTUM_EXHAUSTION_PERIOD + VOLUME_AVERAGE_PERIOD_MINUTES then false
  else
    let recent := market_data.drop (n - MOMENTUM_EXHAUSTION_PERIOD)
    let current_avg_volume := listMean (recent.map MBar.volume)
    -- market_data.iloc[-20:-5]: the 15 bars before the most recent 5
    let prev_window := (market_data.drop (n - VOLUME_AVERAGE_PERIOD_MINUTES)).take
      (VOLUME_AVERAGE_PERIOD_MINUTES - MOMENTUM_EXHAUSTION_PERIOD)
    let previous_avg_volume := listMean (prev_window.map MBar.volume)
    let volume_decline :=
      if previous_avg_volume > 0 then current_avg_volume / previous_avg_volume else 1
    if position_side = "LONG" then
      let hs := recent.map MBar.high
      let declining := decide (3 ≤ hs.length) &&
        decide (lastD hs 0 < last2D hs 0 ∧ last2D hs 0 < lastNthD hs 3 0)
      volume_decline < VOLUME_DECLINE_THRESHOLD && declining
    else if position_side = "SHORT" then
      let ls := recent.map MBar.low
      let rising := decide (3 ≤ ls.length) &&
        decide (lastD ls 0 > last2D ls 0 ∧ last2D ls 0 > lastNthD ls 3 0)
      volume_decline < VOLUME_DECLINE_THRESHOLD && rising
    else false

/-! ### find_exhaustion_signal_legacy (analysis.py, lines 1627-1694) -/

def find_exhaustion_signal_legacy (market_data : List MBar) (position_side : String) : Bool :=
  if market_data.length < RSI_PERIOD + 1 then false
  else
    let closes := closesOf market_data
    match calculate_rsi_last closes with
    | FQ.nan => false                          -- np.isnan(current_rsi)
    | FQ.inf => false                          -- unreachable for RSI values
    | FQ.val current_rsi =>
      let momentum_exhausted := detect_momentum_exhaustion market_data position_side
      if position_side = "LONG" ∧ (current_rsi ≥ RSI_OVERBOUGHT ∨ momentum_exhausted) then true
      else if position_side = "SHORT" ∧ (current_rsi ≤ RSI_OVERSOLD ∨ momentum_exhausted) then true
      else
        -- price-based trend-reversal check on the last 5 closes; note the
        -- source's `range(2)` only compares the OLDEST three of those five
        if market_data.length ≥ 5 then
          let rc := closes.drop (closes.length - 5)
          if position_side = "LONG" then
            decide (rc.getD 0 0 > rc.getD 1 0 ∧ rc.getD 1 0 > rc.getD 2 0)
          else if position_side = "SHORT" then
            decide (rc.getD 0 0 < rc.getD 1 0 ∧ rc.getD 1 0 < rc.getD 2 0)
          else false
        else false

/-! ### find_integrated_exhaustion_signal_legacy (analysis.py, lines 1559-1618) -/

open Classical in
/-- Whether the composite signal opposes the held side at or above the
exit-confidence threshold (step 2 of the source). -/
noncomputable def signalSuggestsExit (ia : Composite) (position_side : String) : Prop :=
  (position_side = "LONG" ∧ ia.signal = Sig.VENDER ∧
      ia.confidence ≥ (EXIT_CONFIDENCE_THRESHOLD : ℝ)) ∨
  (position_side = "SHORT" ∧ ia.signal = Sig.COMPRAR ∧
      ia.confidence ≥ (EXIT_CONFIDENCE_THRESHOLD : ℝ))

/-- The RSI-critical condition of step 4 of the source. -/
def rsiCritical (ia : Composite) (position_side : String) : Prop :=
  match ia.indicators with
  | none => False                  -- indicators dict empty: .get returns None
  | some inds =>
    (position_side = "LONG" ∧ inds.rsi.signal = Sig.VENDER ∧
        inds.rsi.strength ≥ RSI_CRITICAL_STRENGTH) ∨
    (position_side = "SHORT" ∧ inds.rsi.signal = Sig.COMPRAR ∧
        inds.rsi.strength ≥ RSI_CRITICAL_STRENGTH)

open Classical in
noncomputable def find_integrated_exhaustion_signal_legacy
    (market_data : List MBar) (position_side : String) : Bool :=
  let ia := calculate_integrated_signal market_data
  if signalSuggestsExit ia position_side then
    if detect_momentum_exhaustion market_data position_side then true
    else decide (ia.confidence ≥ (EXIT_CONFIRMATION_THRESHOLD : ℝ))
  else if rsiCritical ia position_side then true
  else find_exhaustion_signal_legacy market_data position_side

/-! ## Risk manager (src/utils/risk_manager.py)

`datetime` values are modelled as whole seconds; `now.replace(hour=0,
minute=0, second=0, microsecond=0)` is truncation to the day boundary.
Python dicts keyed by symbol are modelled as association lists with
unique keys (insertion at the front; the semantics used — membership,
lookup, size, delete — do not depend on entry order). -/

def SECONDS_PER_DAY : ℕ := 86400

def midnightOf (now : ℕ) : ℕ := now / SECONDS_PER_DAY * SECONDS_PER_DAY

structure RMPosition where
  symbol : String
  side : String
  entry_price : ℚ
  trade_value : ℚ
  leverage : ℚ        -- `int` in the source; embedded in ℚ
  stop_loss_price : ℚ
  take_profit_price : ℚ
  open_time : ℕ
  quantity : ℚ
deriving DecidableEq, Repr

structure RMTrade where
  symbol : String
  side : String
  entry_price : ℚ
  exit_price : ℚ
  trade_value : ℚ
  leverage : ℚ
  pnl_usd : ℚ
  pnl_pct : ℚ
  open_time : ℕ
  close_time : ℕ
deriving DecidableEq, Repr

structure RMState where
  initial_balance : ℚ
  current_balance : ℚ
  daily_pnl : ℚ
  open_positions : List (String × RMPosition)
  trade_history : List RMTrade
  daily_reset_time : ℕ
deriving DecidableEq, Repr

/-- The denial/approval reasons of `can_open_position`, as tags for the
source's (formatted) reason strings. -/
inductive RMReason
  | MaxTrades            -- "Máximo de N trades simultâneos atingido"
  | AlreadyOpen          -- "Posição já aberta para {symbol}"
  | DailyLossReached     -- "Perda diária máxima de $N atingida"
  | PositionTooLarge     -- "Valor da posição excede N% do capital"
  | InsufficientBalance  -- "Saldo insuficiente"
  | Approved             -- "Posição aprovada pelo gerenciador de risco"
deriving DecidableEq, Repr

def resetDailyStats (s : RMState) (now : ℕ) : RMState :=
  if s.daily_reset_time + SECONDS_PER_DAY ≤ now then
    { s with daily_pnl := 0, daily_reset_time := midnightOf now }
  else s

/-- `RiskManager.can_open_position` (lines 50-76).  It mutates `self`
through `_reset_daily_stats`, so it returns the new state as well. -/
def can_open_position (s : RMState) (now : ℕ) (symbol : String)
    (trade_value : ℚ) : (Bool × RMReason) × RMState :=
  let s := resetDailyStats s now
  if s.open_positions.length ≥ MAX_CONCURRENT_TRADES then
    ((false, RMReason.MaxTrades), s)
  else if (s.open_positions.lookup symbol).isSome then
    ((false, RMReason.AlreadyOpen), s)
  else if s.daily_pnl ≤ -MAX_DAILY_LOSS then
    ((false, RMReason.DailyLossReached), s)
  else if trade_value > s.current_balance * (MAX_POSITION_SIZE_PCT / 100) then
    ((false, RMReason.PositionTooLarge), s)
  else if trade_value > s.current_balance then
    ((false, RMReason.InsufficientBalance), s)
  else ((true, RMReason.Approved), s)

/-- `side.lower() in ['long', 'buy']`. -/
def isLongSide (side : String) : Bool :=
  side.toLower = "long" || side.toLower = "buy"

/-- `RiskManager.open_position` (lines 78-113). -/
def open_position (s : RMState) (now : ℕ) (symbol side : String)
    (entry_price trade_value leverage : ℚ) : Bool × RMState :=
  let r := can_open_position s now symbol trade_value
  let s1 := r.2
  if !r.1.1 then (false, s1)
  else
    let stop_loss_price :=
      if isLongSide side then entry_price * (1 - STOP_LOSS_PCT / 100)
      else entry_price * (1 + STOP_LOSS_PCT / 100)
    let take_profit_price :=
      if isLongSide side then entry_price * (1 + TAKE_PROFIT_PCT / 100)
      else entry_price * (1 - TAKE_PROFIT_PCT / 100)
    let pos : RMPosition :=
      ⟨symbol, side, entry_price, trade_value, leverage, stop_loss_price,
        take_profit_price, now, trade_value * leverage / entry_price⟩
    (true, { s1 with
      open_positions := (symbol, pos) :: s1.open_positions,
      current_balance := s1.current_balance - trade_value })

/-- `RiskManager.close_position` (lines 115-162). -/
def close_position (s : RMState) (now : ℕ) (symbol : String)
    (exit_price : ℚ) : Option RMTrade × RMState :=
  match s.open_positions.lookup symbol with
  | none => (none, s)
  | some p =>
    let price_change_pct :=
      if isLongSide p.side then (exit_price - p.entry_price) / p.entry_price * 100
      else (p.entry_price - exit_price) / p.entry_price * 100
    let pnl_pct := price_change_pct * p.leverage
    let pnl_usd := pnl_pct / 100 * p.trade_value
    let trade_record : RMTrade :=
      ⟨symbol, p.side, p.entry_price, exit_price, p.trade_value, p.leverage,
        pnl_usd, pnl_pct, p.open_time, now⟩
    (some trade_record, { s with
      current_balance := s.current_balance + p.trade_value + pnl_usd,
      daily_pnl := s.daily_pnl + pnl_usd,
      trade_history := s.trade_history ++ [trade_record],
      open_positions := s.open_positions.filter (fun kv => kv.1 ≠ symbol) })

/-! ## Real-time stream manager (src/utils/data.py)

A stream buffer is a `collections.deque` with an optional `maxlen`;
`start_stream` creates it with `maxlen = limit`, while `_on_message` on a
key with no buffer (never started, or removed by `stop_stream`) falls
back to `deque()` — unbounded.  Only the buffer/current-candle state is
modelled; the websocket connection and callback bookkeeping have no
effect on it. -/

structure Candle where
  time : ℕ             -- kline open time 't'
  opn : ℚ              -- 'o' (field `open` is a Lean keyword)
  high : ℚ
  low : ℚ
  close : ℚ
  volume : ℚ
  is_closed : Bool     -- 'x'
deriving DecidableEq, Repr

structure StreamBuffer where
  maxlen : Option ℕ
  bars : List Candle
deriving DecidableEq, Repr

/-- `deque.append`: evicts from the left when `maxlen` is reached. -/
def pushCandle (b : StreamBuffer) (c : Candle) : StreamBuffer :=
  let bs := b.bars ++ [c]
  ⟨b.maxlen,
    match b.maxlen with
    | none => bs
    | some m => bs.drop (bs.length - m)⟩

/-- Association-list update (dict assignment). -/
def setA {β : Type} (k : String) (v : β) : List (String × β) → List (String × β)
  | [] => [(k, v)]
  | (k', v') :: rest => if k' = k then (k, v) :: rest else (k', v') :: setA k v rest

/-- Association-list delete (dict `del`). -/
def delA {β : Type} (k : String) (l : List (String × β)) : List (String × β) :=
  l.filter (fun kv => kv.1 ≠ k)

structure RTDMState where
  data_buffers : List (String × StreamBuffer)
  current_candles : List (String × Candle)
deriving DecidableEq, Repr

def RTDMState.initial : RTDMState := ⟨[], []⟩

inductive StreamEvent
  | start (stream_key : String) (limit : ℕ)
  | message (stream_key : String) (c : Candle)
  | stop (stream_key : String)
deriving DecidableEq, Repr

/-- One event of the stream manager: `start_stream` (lines 166-212,
buffer initialisation), `_on_message` (lines 116-152) and `stop_stream`
(lines 214-229). -/
def streamStep (s : RTDMState) : StreamEvent → RTDMState
  | StreamEvent.start k limit =>
    { s with data_buffers := setA k ⟨some limit, []⟩ s.data_buffers }
  | StreamEvent.message k c =>
    let s := { s with current_candles := setA k c s.current_candles }
    if c.is_closed then
      let buf := (s.data_buffers.lookup k).getD ⟨none, []⟩
      { s with data_buffers := setA k (pushCandle buf c) s.data_buffers }
    else s
  | StreamEvent.stop k =>
    { data_buffers := delA k s.data_buffers,
      current_candles := delA k s.current_candles }

def streamRun (s : RTDMState) (es : List StreamEvent) : RTDMState :=
  es.foldl streamStep s

/-- The spec's Bar Buffer invariant: the capacity bound, and bars
chronologically non-decreasing by open time. -/
def bufferOk (b : StreamBuffer) : Prop :=
  (∀ m, b.maxlen = some m → b.bars.length ≤ m) ∧
    List.Chain' (fun a b => a.time ≤ b.time) b.bars

/-- Structural version of "chronologically non-decreasing", with a
kernel-reducible decidability instance. -/
def chronOk : List Candle → Prop
  | [] => True
  | [_] => True
  | a :: b :: rest => a.time ≤ b.time ∧ chronOk (b :: rest)

instance chronOkDec : (l : List Candle) → Decidable (chronOk l)
  | [] => isTrue trivial
  | [_] => isTrue trivial
  | _ :: b :: rest => @instDecidableAnd _ _ inferInstance (chronOkDec (b :: rest))

theorem chronOk_iff : ∀ l : List Candle, chronOk l ↔ List.Chain' (fun a b => a.time ≤ b.time) l
  | [] => by simp [chronOk]
  | [a] => by simp [chronOk]
  | a :: b :: rest => by
    rw [List.chain'_cons]
    exact and_congr_right fun _ => chronOk_iff (b :: rest)

instance : DecidablePred bufferOk := fun b =>
  match hml : b.maxlen with
  | none =>
    decidable_of_iff (chronOk b.bars)
      (by unfold bufferOk; rw [hml, chronOk_iff]; simp)
  | some m =>
    decidable_of_iff (b.bars.length ≤ m ∧ chronOk b.bars)
      (by unfold bufferOk; rw [hml, chronOk_iff]; simp)

def streamInv (s : RTDMState) : Prop :=
  ∀ kb ∈ s.data_buffers, bufferOk kb.2

instance : DecidablePred streamInv := fun s =>
  List.decidableBAll _ s.data_buffers

/-- The capacity half of the Bar Buffer invariant on its own: a buffer
that carries a `maxlen` holds at most that many bars.  This half holds
unconditionally — `deque.append` truncates no matter what arrives. -/
def capacityOk (b : StreamBuffer) : Prop :=
  ∀ m, b.maxlen = some m → b.bars.length ≤ m

instance : DecidablePred capacityOk := fun b =>
  match hml : b.maxlen with
  | none =>
    decidable_of_iff True (by unfold capacityOk; rw [hml]; simp)
  | some m =>
    decidable_of_iff (b.bars.length ≤ m) (by unfold capacityOk; rw [hml]; simp)

def capacityInv (s : RTDMState) : Prop :=
  ∀ kb ∈ s.data_buffers, capacityOk kb.2

instance : DecidablePred capacityInv := fun s =>
  List.decidableBAll _ s.data_buffers

/-- A trace is orderly from state `s` when every closed-bar message
arrives with an open time at least that of every bar already buffered
for its stream key. -/
def orderlyFrom (s : RTDMState) : List StreamEvent → Prop
  | [] => True
  | e :: es =>
    (match e with
     | StreamEvent.message k c =>
       c.is_closed = true →
         ∀ b ∈ ((s.data_buffers.lookup k).getD ⟨none, []⟩).bars, b.time ≤ c.time
     | _ => True) ∧ orderlyFrom (streamStep s e) es

instance : ∀ es, DecidablePred (orderlyFrom · es) := fun es => by
  induction es with
  | nil => intro s; exact isTrue trivial
  | cons e es ih =>
    intro s
    have : Decidable (match e with
       | StreamEvent.message k c =>
         c.is_closed = true →
           ∀ b ∈ ((s.data_buffers.lookup k).getD ⟨none, []⟩).bars, b.time ≤ c.time
       | _ => True) := by
      cases e with
      | message k c => exact inferInstance
      | start k l => exact isTrue trivial
      | stop k => exact isTrue trivial
    exact @instDecidableAnd _ _ this (ih (streamStep s e))

/-! ## Concrete datasets used by counterexamples and witnesses -/

/-- A bar with identical OHLC at `c` and unit volume. -/
def flatBar (c : ℚ) : MBar := ⟨c, c, c, 1⟩

/-- 35 bars: 21 flat at 100, then a bump and a crash to 95.  Its last-14
window has mean 100 and sample variance exactly 4 (std 2), and the
composite signal on it is BUY. -/
def dataBuy : List MBar :=
  (List.replicate 21 (100 : ℚ) ++
    ([105, 101] ++ List.replicate 10 (100 : ℚ) ++ [99, 95])).map flatBar

/-- 35 bars ending at 100 after a dip-and-spike; the composite signal on
it is SELL with confidence ≈ 0.49 — inside `[0.4, 0.6)`. -/
def dataExit : List MBar :=
  (List.replicate 21 (100 : ℚ) ++
    ([95, 99, 105] ++ List.replicate 8 (100 : ℚ) ++ [101, 100, 100])).map flatBar

section Claims

set_option allowUnsafeReducibility true
attribute [local semireducible] Rat.add Rat.mul Rat.sub Rat.inv Rat.ofScientific

/-! ## C5 — composite confidence is clamped to [0,1] -/

open Classical in
/-- C5: for every input bar history, the composite confidence lies in
`[0,1]`; it equals `min (|score| * CONFIDENCE_MULTIPLIER) 1` whenever the
weighted score exceeds the buy threshold or falls below the sell
threshold, and `0` otherwise. -/
theorem C5_confidence_clamped (market_data : List MBar) :
    0 ≤ (calculate_integrated_signal market_data).confidence ∧
    (calculate_integrated_signal market_data).confidence ≤ 1 ∧
    (calculate_integrated_signal market_data).confidence =
      (if (calculate_integrated_signal market_data).weighted_score >
          (INTEGRATED_SIGNAL_THRESHOLD_BUY : ℝ) then
        min (|(calculate_integrated_signal market_data).weighted_score| *
          (CONFIDENCE_MULTIPLIER : ℝ)) 1
      else if (calculate_integrated_signal market_data).weighted_score <
          (INTEGRATED_SIGNAL_THRESHOLD_SELL : ℝ) then
        min (|(calculate_integrated_signal market_data).weighted_score| *
          (CONFIDENCE_MULTIPLIER : ℝ)) 1
      else 0) := by
  by_cases hlen : market_data.length < min_required
  · have hr : calculate_integrated_signal market_data = ⟨Sig.NEUTRO, 0, none, 0⟩ := by
      unfold calculate_integrated_signal; rw [if_pos hlen]
    rw [hr]
    refine ⟨le_refl 0, zero_le_one, ?_⟩
    have h1 : ¬ ((⟨Sig.NEUTRO, 0, none, 0⟩ : Composite).weighted_score >
        (INTEGRATED_SIGNAL_THRESHOLD_BUY : ℝ)) := by
      show ¬ ((0 : ℝ) > _); rw [INTEGRATED_SIGNAL_THRESHOLD_BUY]; norm_num
    have h2 : ¬ ((⟨Sig.NEUTRO, 0, none, 0⟩ : Composite).weighted_score <
        (INTEGRATED_SIGNAL_THRESHOLD_SELL : ℝ)) := by
      show ¬ ((0 : ℝ) < _); rw [INTEGRATED_SIGNAL_THRESHOLD_SELL]; norm_num
    rw [if_neg h1, if_neg h2]
  · by_cases hbuy : integratedScore (closesOf market_data) > (INTEGRATED_SIGNAL_THRESHOLD_BUY : ℝ)
    · have hr : calculate_integrated_signal market_data =
          ⟨Sig.COMPRAR, min (integratedScore (closesOf market_data) * (CONFIDENCE_MULTIPLIER : ℝ)) 1,
            some ⟨rsiRes (closesOf market_data), macdRes (closesOf market_data),
              bbRes (closesOf market_data), emaRes (closesOf market_data)⟩,
            integratedScore (closesOf market_data)⟩ := by
        unfold calculate_integrated_signal; rw [if_neg hlen]; exact if_pos hbuy
      rw [hr]
      have hpos : (0 : ℝ) < integratedScore (closesOf market_data) := by
        refine lt_trans ?_ hbuy
        rw [INTEGRATED_SIGNAL_THRESHOLD_BUY]; norm_num
      refine ⟨le_min (mul_nonneg hpos.le (by rw [CONFIDENCE_MULTIPLIER]; norm_num))
        zero_le_one, min_le_right _ _, ?_⟩
      rw [if_pos hbuy, abs_of_pos hpos]
    · by_cases hsell : integratedScore (closesOf market_data) < (INTEGRATED_SIGNAL_THRESHOLD_SELL : ℝ)
      · have hr : calculate_integrated_signal market_data =
            ⟨Sig.VENDER, min (|integratedScore (closesOf market_data)| * (CONFIDENCE_MULTIPLIER : ℝ)) 1,
              some ⟨rsiRes (closesOf market_data), macdRes (closesOf market_data),
                bbRes (closesOf market_data), emaRes (closesOf market_data)⟩,
              integratedScore (closesOf market_data)⟩ := by
          unfold calculate_integrated_signal; rw [if_neg hlen]
          rw [if_neg (by exact fun h => absurd h (not_lt.mpr (le_of_lt (lt_trans hsell (by
            rw [INTEGRATED_SIGNAL_THRESHOLD_SELL, INTEGRATED_SIGNAL_THRESHOLD_BUY]; norm_num))))),
            if_pos hsell]
        rw [hr]
        refine ⟨le_min (mul_nonneg (abs_nonneg _) (by rw [CONFIDENCE_MULTIPLIER]; norm_num))
          zero_le_one, min_le_right _ _, ?_⟩
        rw [if_neg hbuy, if_pos hsell]
      · have hr : calculate_integrated_signal market_data =
            ⟨Sig.NEUTRO, 0,
              some ⟨rsiRes (closesOf market_data), macdRes (closesOf market_data),
                bbRes (closesOf market_data), emaRes (closesOf market_data)⟩,
              integratedScore (closesOf market_data)⟩ := by
          unfold calculate_integrated_signal; rw [if_neg hlen]
          rw [if_neg hbuy, if_neg hsell]
        rw [hr]
        refine ⟨le_refl 0, zero_le_one, ?_⟩
        rw [if_neg hbuy, if_neg hsell]

/-! ## Association-list helper lemmas for the risk ledger -/

theorem lookup_filter_self {β : Type} (sym : String) (l : List (String × β)) :
    (l.filter (fun kv => kv.1 ≠ sym)).lookup sym = none := by
  rw [List.lookup_eq_none_iff]
  intro p hp
  have hne := List.of_mem_filter hp
  simp only [decide_eq_true_eq] at hne
  simpa using Ne.symm hne

theorem filter_ne_of_lookup_none {β : Type} (sym : String) (l : List (String × β))
    (h : l.lookup sym = none) : l.filter (fun kv => kv.1 ≠ sym) = l := by
  rw [List.lookup_eq_none_iff] at h
  rw [List.filter_eq_self]
  intro p hp
  have := h p hp
  simp only [bne_iff_ne, ne_eq] at this
  simpa using Ne.symm this

/-! ## C6 — daily loss limit forces denial -/

/-- C6 (amended): with the daily P&L at or below the negative daily-loss
limit and no pending day rollover, `can_open_position` always denies and
leaves the state unchanged; the stated reason is the daily-loss one
exactly when the two earlier checks (max concurrent trades, symbol
already open) pass. -/
theorem C6_daily_loss_denies (s : RMState) (now : ℕ) (symbol : String) (trade_value : ℚ)
    (hpnl : s.daily_pnl ≤ -MAX_DAILY_LOSS)
    (hnoroll : now < s.daily_reset_time + SECONDS_PER_DAY) :
    (can_open_position s now symbol trade_value).1.1 = false ∧
    (can_open_position s now symbol trade_value).2 = s ∧
    (s.open_positions.length < MAX_CONCURRENT_TRADES →
      s.open_positions.lookup symbol = none →
      (can_open_position s now symbol trade_value).1.2 = RMReason.DailyLossReached) := by
  have hreset : resetDailyStats s now = s := by
    unfold resetDailyStats
    rw [if_neg (by omega)]
  unfold can_open_position
  rw [hreset]
  by_cases hmax : s.open_positions.length ≥ MAX_CONCURRENT_TRADES
  · rw [if_pos hmax]
    exact ⟨rfl, rfl, fun hlt _ => absurd hmax (not_le.mpr hlt)⟩
  · rw [if_neg hmax]
    by_cases hopen : (s.open_positions.lookup symbol).isSome
    · rw [if_pos hopen]
      refine ⟨rfl, rfl, fun _ hnone => ?_⟩
      rw [hnone] at hopen
      exact absurd hopen (by simp)
    · rw [if_neg hopen, if_pos hpnl]
      exact ⟨rfl, rfl, fun _ _ => rfl⟩

/-- C6 witness: a state with `daily_pnl = -MAX_DAILY_LOSS`, no open
positions and a mid-day clock is denied with the daily-loss reason. -/
theorem C6_daily_loss_denies_witness :
    (can_open_position ⟨100, 100, -20, [], [], 0⟩ 1000 "BTCUSDT" 5).1.1 = false ∧
    (can_open_position ⟨100, 100, -20, [], [], 0⟩ 1000 "BTCUSDT" 5).1.2 =
      RMReason.DailyLossReached := by
  have h := C6_daily_loss_denies ⟨100, 100, -20, [], [], 0⟩ 1000 "BTCUSDT" 5
    (by norm_num [MAX_DAILY_LOSS]) (by norm_num [SECONDS_PER_DAY])
  exact ⟨h.1, h.2.2 (by norm_num [MAX_CONCURRENT_TRADES]) rfl⟩

/-- C6 counterexample: the claim as stated is false — with the daily
loss limit hit but the requested symbol already holding a position, the
reason names the already-open position, not the daily loss limit. -/
theorem C6_daily_loss_denies_counterexample :
    (⟨100, 100, -20, [("BTCUSDT", ⟨"BTCUSDT", "long", 100, 5, 1, 99, 105, 0, 1/20⟩)], [], 0⟩ :
        RMState).daily_pnl ≤ -MAX_DAILY_LOSS ∧
    (can_open_position
        ⟨100, 100, -20, [("BTCUSDT", ⟨"BTCUSDT", "long", 100, 5, 1, 99, 105, 0, 1/20⟩)], [], 0⟩
        1000 "BTCUSDT" 5).1 = (false, RMReason.AlreadyOpen) := by
  constructor
  · norm_num [MAX_DAILY_LOSS]
  · decide

/-! ## C9 — open_position is atomic in its error branch -/

/-- C9 (amended): with no pending day rollover, a denied
`open_position` returns `false` with the state fully unchanged, and an
approved one returns `true`, decreases the balance by exactly
`trade_value`, leaves `daily_pnl` and `trade_history` unchanged, and adds
exactly one position for the symbol, with
`quantity = trade_value * leverage / entry_price`. -/
theorem C9_open_position_atomic (s : RMState) (now : ℕ) (symbol side : String)
    (entry_price trade_value leverage : ℚ)
    (hnoroll : now < s.daily_reset_time + SECONDS_PER_DAY) :
    ((can_open_position s now symbol trade_value).1.1 = false →
      open_position s now symbol side entry_price trade_value leverage = (false, s)) ∧
    ((can_open_position s now symbol trade_value).1.1 = true →
      (open_position s now symbol side entry_price trade_value leverage).1 = true ∧
      (open_position s now symbol side entry_price trade_value leverage).2.current_balance =
        s.current_balance - trade_value ∧
      (open_position s now symbol side entry_price trade_value leverage).2.daily_pnl =
        s.daily_pnl ∧
      (open_position s now symbol side entry_price trade_value leverage).2.trade_history =
        s.trade_history ∧
      (open_position s now symbol side entry_price trade_value leverage).2.open_positions.length =
        s.open_positions.length + 1 ∧
      ((open_position s now symbol side entry_price trade_value leverage).2.open_positions.lookup
        symbol).map RMPosition.quantity = some (trade_value * leverage / entry_price)) := by
  have hreset : resetDailyStats s now = s := by
    unfold resetDailyStats
    rw [if_neg (by omega)]
  have hstate : (can_open_position s now symbol trade_value).2 = s := by
    unfold can_open_position
    rw [hreset]
    by_cases h1 : s.open_positions.length ≥ MAX_CONCURRENT_TRADES
    · rw [if_pos h1]
    · rw [if_neg h1]
      by_cases h2 : (s.open_positions.lookup symbol).isSome
      · rw [if_pos h2]
      · rw [if_neg h2]
        by_cases h3 : s.daily_pnl ≤ -MAX_DAILY_LOSS
        · rw [if_pos h3]
        · rw [if_neg h3]
          by_cases h4 : trade_value > s.current_balance * (MAX_POSITION_SIZE_PCT / 100)
          · rw [if_pos h4]
          · rw [if_neg h4]
            by_cases h5 : trade_value > s.current_balance
            · rw [if_pos h5]
            · rw [if_neg h5]
  constructor
  · intro hdeny
    unfold open_position
    dsimp only
    rw [hdeny]
    simp only [Bool.not_false, if_pos]
    rw [hstate]
  · intro happrove
    unfold open_position
    dsimp only
    rw [happrove]
    simp only [Bool.not_true, if_neg (by simp : ¬ (false = true))]
    rw [hstate]
    simp [List.lookup_cons_self]

/-- C9 witness: at a fresh ledger both branches are exercised: an
approved open deducts the margin and records the position; a denied open
(symbol already held) changes nothing. -/
theorem C9_open_position_atomic_witness :
    ((open_position ⟨100, 100, 0, [], [], 0⟩ 1000 "BTCUSDT" "long" 50 5 3).1 = true ∧
      (open_position ⟨100, 100, 0, [], [], 0⟩ 1000 "BTCUSDT" "long" 50 5 3).2.current_balance =
        95 ∧
      ((open_position ⟨100, 100, 0, [], [], 0⟩ 1000 "BTCUSDT" "long" 50 5 3).2.open_positions.lookup
        "BTCUSDT").map RMPosition.quantity = some (3/10)) := by
  have h := (C9_open_position_atomic ⟨100, 100, 0, [], [], 0⟩ 1000 "BTCUSDT" "long" 50 5 3
    (by norm_num [SECONDS_PER_DAY])).2 (by decide)
  refine ⟨h.1, ?_, ?_⟩
  · rw [h.2.1]; norm_num
  · rw [h.2.2.2.2.2]; norm_num

/-- C9 counterexample: the claim as stated is false — when a day
boundary has passed, even a denied `open_position` mutates the ledger:
the embedded `can_open_position` rolls the daily statistics over,
resetting `daily_pnl` (here from −5 to 0) although it returns `false`. -/
theorem C9_open_position_atomic_counterexample :
    (open_position
        ⟨100, 100, -5, [("BTCUSDT", ⟨"BTCUSDT", "long", 100, 5, 1, 99, 105, 0, 1/20⟩)], [], 0⟩
        172800 "BTCUSDT" "long" 100 5 1).1 = false ∧
    (open_position
        ⟨100, 100, -5, [("BTCUSDT", ⟨"BTCUSDT", "long", 100, 5, 1, 99, 105, 0, 1/20⟩)], [], 0⟩
        172800 "BTCUSDT" "long" 100 5 1).2.daily_pnl = 0 := by
  decide

/-! ## C10 — open/close round trip at equal price restores the ledger -/

/-- C10: an approved `open_position` at price `p` followed by
`close_position` of the same symbol at exit price `p`, with no pending
day rollover, yields a trade with P&L exactly 0, restores
`current_balance` and `daily_pnl` exactly, and leaves the symbol without
an open position — for any side string and any leverage. -/
theorem C10_round_trip_restores_ledger (s : RMState) (now1 now2 : ℕ) (symbol side : String)
    (p trade_value leverage : ℚ) (hp : 0 < p)
    (hnoroll : now1 < s.daily_reset_time + SECONDS_PER_DAY)
    (happrove : (can_open_position s now1 symbol trade_value).1.1 = true) :
    (∀ r, (close_position (open_position s now1 symbol side p trade_value leverage).2
        now2 symbol p).1 = some r → r.pnl_usd = 0) ∧
    (close_position (open_position s now1 symbol side p trade_value leverage).2
        now2 symbol p).2.current_balance = s.current_balance ∧
    (close_position (open_position s now1 symbol side p trade_value leverage).2
        now2 symbol p).2.daily_pnl = s.daily_pnl ∧
    (close_position (open_position s now1 symbol side p trade_value leverage).2
        now2 symbol p).2.open_positions.lookup symbol = none := by
  have hreset : resetDailyStats s now1 = s := by
    unfold resetDailyStats
    rw [if_neg (by omega)]
  have hstate : (can_open_position s now1 symbol trade_value).2 = s := by
    unfold can_open_position
    rw [hreset]
    by_cases h1 : s.open_positions.length ≥ MAX_CONCURRENT_TRADES
    · rw [if_pos h1]
    · rw [if_neg h1]
      by_cases h2 : (s.open_positions.lookup symbol).isSome
      · rw [if_pos h2]
      · rw [if_neg h2]
        by_cases h3 : s.daily_pnl ≤ -MAX_DAILY_LOSS
        · rw [if_pos h3]
        · rw [if_neg h3]
          by_cases h4 : trade_value > s.current_balance * (MAX_POSITION_SIZE_PCT / 100)
          · rw [if_pos h4]
          · rw [if_neg h4]
            by_cases h5 : trade_value > s.current_balance
            · rw [if_pos h5]
            · rw [if_neg h5]
  -- approval implies the symbol had no open position
  have hnone : s.open_positions.lookup symbol = none := by
    by_contra hne
    have hsome : (s.open_positions.lookup symbol).isSome = true := by
      cases hl : s.open_positions.lookup symbol with
      | none => exact absurd hl hne
      | some v => simp
    unfold can_open_position at happrove
    rw [hreset] at happrove
    by_cases h1 : s.open_positions.length ≥ MAX_CONCURRENT_TRADES
    · rw [if_pos h1] at happrove; exact absurd happrove (by simp)
    · rw [if_neg h1, if_pos hsome] at happrove; exact absurd happrove (by simp)
  -- the state after the approved open
  have hopen : (open_position s now1 symbol side p trade_value leverage).2 =
      { s with
        open_positions :=
          (symbol, ⟨symbol, side, p, trade_value, leverage,
            (if isLongSide side then p * (1 - STOP_LOSS_PCT / 100)
             else p * (1 + STOP_LOSS_PCT / 100)),
            (if isLongSide side then p * (1 + TAKE_PROFIT_PCT / 100)
             else p * (1 - TAKE_PROFIT_PCT / 100)),
            now1, trade_value * leverage / p⟩) :: s.open_positions,
        current_balance := s.current_balance - trade_value } := by
    unfold open_position
    dsimp only
    rw [happrove]
    simp only [Bool.not_true, if_neg (by simp : ¬ (false = true))]
    rw [hstate]
  rw [hopen]
  -- the close finds the freshly opened position
  unfold close_position
  simp only [List.lookup_cons_self]
  have hzero : (if isLongSide side then (p - p) / p * 100 else (p - p) / p * 100) = 0 := by
    split <;> simp
  constructor
  · intro r hr
    have : r = ⟨symbol, side, p, p, trade_value, leverage,
        (if isLongSide side then (p - p) / p * 100 else (p - p) / p * 100) * leverage / 100 *
          trade_value,
        (if isLongSide side then (p - p) / p * 100 else (p - p) / p * 100) * leverage,
        now1, now2⟩ := by
      exact (Option.some_inj.mp hr).symm
    rw [this]
    show (if isLongSide side then (p - p) / p * 100 else (p - p) / p * 100) * leverage / 100 *
      trade_value = 0
    rw [hzero]
    ring
  · refine ⟨?_, ?_, ?_⟩
    · show s.current_balance - trade_value + trade_value +
        (if isLongSide side then (p - p) / p * 100 else (p - p) / p * 100) * leverage / 100 *
          trade_value = s.current_balance
      rw [hzero]; ring
    · show s.daily_pnl +
        (if isLongSide side then (p - p) / p * 100 else (p - p) / p * 100) * leverage / 100 *
          trade_value = s.daily_pnl
      rw [hzero]; ring
    · show (((symbol, _) :: s.open_positions).filter (fun kv => kv.1 ≠ symbol)).lookup symbol =
        none
      exact lookup_filter_self symbol _

/-- C10 witness: a concrete long round trip at price 50 with leverage 3
restores the ledger exactly. -/
theorem C10_round_trip_restores_ledger_witness :
    (close_position (open_position ⟨100, 100, 0, [], [], 0⟩ 1000 "BTCUSDT" "long" 50 5 3).2
        2000 "BTCUSDT" 50).2.current_balance = 100 ∧
    (close_position (open_position ⟨100, 100, 0, [], [], 0⟩ 1000 "BTCUSDT" "long" 50 5 3).2
        2000 "BTCUSDT" 50).2.daily_pnl = 0 ∧
    (close_position (open_position ⟨100, 100, 0, [], [], 0⟩ 1000 "BTCUSDT" "long" 50 5 3).2
        2000 "BTCUSDT" 50).2.open_positions.lookup "BTCUSDT" = none := by
  have h := C10_round_trip_restores_ledger ⟨100, 100, 0, [], [], 0⟩ 1000 2000 "BTCUSDT" "long"
    50 5 3 (by norm_num) (by norm_num [SECONDS_PER_DAY]) (by decide)
  exact ⟨h.2.1, h.2.2.1, h.2.2.2⟩

/-! ## C4 — RSI with zero average loss -/

/-- C4 (amended): when the rolling average loss over the RSI window is
zero, the RSI is NaN (and the analysis NEUTRAL) only if the average gain
is also zero; with a positive average gain the IEEE arithmetic yields
RSI = 100 — a bounded value — and the analysis emits SELL with strength
1, not NEUTRAL.  In every case the emitted strength is finite and lies
in `[0,1]`: no infinite or NaN strength is possible. -/
theorem analyze_rsi_signal_val (q : ℚ) :
    analyze_rsi_signal (FQ.val q) =
      if q ≤ RSI_OVERSOLD then ⟨Sig.COMPRAR, min ((RSI_OVERSOLD - q) / RSI_OVERSOLD) 1⟩
      else if q ≥ RSI_OVERBOUGHT then
        ⟨Sig.VENDER, min ((q - RSI_OVERBOUGHT) / (100 - RSI_OVERBOUGHT)) 1⟩
      else ⟨Sig.NEUTRO, 0⟩ := rfl

theorem C4_rsi_zero_loss (closes : List ℚ)
    (hlen : RSI_PERIOD ≤ (gainsSeries closes).length)
    (hloss : avgLossLast closes RSI_PERIOD = 0) :
    (avgGainLast closes RSI_PERIOD ≠ 0 →
      calculate_rsi_last closes = FQ.val 100 ∧
      analyze_rsi_signal (calculate_rsi_last closes) = ⟨Sig.VENDER, 1⟩) ∧
    (avgGainLast closes RSI_PERIOD = 0 →
      calculate_rsi_last closes = FQ.nan ∧
      analyze_rsi_signal (calculate_rsi_last closes) = ⟨Sig.NEUTRO, 0⟩) ∧
    (∀ r : FQ, 0 ≤ (analyze_rsi_signal r).strength ∧ (analyze_rsi_signal r).strength ≤ 1) := by
  have hguard : ¬ ((gainsSeries closes).length < RSI_PERIOD ∨ RSI_PERIOD = 0) := by
    rw [RSI_PERIOD] at hlen ⊢; omega
  have hval : ∀ g : ℚ, g ≠ 0 → calculate_rsi_last closes = FQ.val 100 ∨ True := fun _ _ =>
    Or.inr trivial
  refine ⟨?_, ?_, ?_⟩
  · intro hgain
    have h1 : calculate_rsi_last closes = FQ.val 100 := by
      unfold calculate_rsi_last
      rw [if_neg hguard]
      dsimp only
      rw [if_pos hloss, if_neg hgain]
    refine ⟨h1, ?_⟩
    rw [h1, analyze_rsi_signal_val]
    rw [if_neg (by norm_num [RSI_OVERSOLD]), if_pos (by norm_num [RSI_OVERBOUGHT])]
    norm_num [RSI_OVERBOUGHT]
  · intro hgain
    have h1 : calculate_rsi_last closes = FQ.nan := by
      unfold calculate_rsi_last
      rw [if_neg hguard]
      dsimp only
      rw [if_pos hloss, if_pos hgain]
    exact ⟨h1, by rw [h1]; rfl⟩
  · intro r
    cases r with
    | nan => exact ⟨le_refl 0, zero_le_one⟩
    | inf => exact ⟨zero_le_one, le_refl 1⟩
    | val q =>
      rw [analyze_rsi_signal_val]
      by_cases h1 : q ≤ RSI_OVERSOLD
      · rw [if_pos h1]
        refine ⟨le_min (div_nonneg ?_ (by norm_num [RSI_OVERSOLD])) zero_le_one, min_le_right _ _⟩
        rw [RSI_OVERSOLD] at h1 ⊢; linarith
      · rw [if_neg h1]
        by_cases h2 : q ≥ RSI_OVERBOUGHT
        · rw [if_pos h2]
          refine ⟨le_min (div_nonneg ?_ (by norm_num [RSI_OVERBOUGHT])) zero_le_one,
            min_le_right _ _⟩
          rw [RSI_OVERBOUGHT] at h2 ⊢; linarith
        · rw [if_neg h2]
          exact ⟨le_refl 0, zero_le_one⟩

/-- C4 witness: a strictly rising window has zero average loss and
positive average gain: the RSI is 100 and the analysis is SELL/1. -/
theorem C4_rsi_zero_loss_witness :
    calculate_rsi_last [1, 2, 3, 4, 5, 6, 7, 8] = FQ.val 100 ∧
    analyze_rsi_signal (calculate_rsi_last [1, 2, 3, 4, 5, 6, 7, 8]) = ⟨Sig.VENDER, 1⟩ := by
  exact (C4_rsi_zero_loss [1, 2, 3, 4, 5, 6, 7, 8] (by decide) (by decide)).1 (by decide)

/-- C4 counterexample: the claim as stated is false — on a strictly
rising window (zero average loss) the RSI analysis is SELL with strength
1, not NEUTRAL/undefined. -/
theorem C4_rsi_zero_loss_counterexample :
    avgLossLast [1, 2, 3, 4, 5, 6, 7, 8] RSI_PERIOD = 0 ∧
    analyze_rsi_signal (calculate_rsi_last [1, 2, 3, 4, 5, 6, 7, 8]) ≠ ⟨Sig.NEUTRO, 0⟩ ∧
    analyze_rsi_signal (calculate_rsi_last [1, 2, 3, 4, 5, 6, 7, 8]) = ⟨Sig.VENDER, 1⟩ := by
  decide

/-! ## Series length lemmas -/

theorem ewmAux_length (alpha : ℚ) :
    ∀ (num den : ℚ) (xs : List ℚ), (ewmAux alpha num den xs).length = xs.length
  | _, _, [] => rfl
  | num, den, x :: xs => by
    rw [ewmAux]
    simpa using ewmAux_length alpha _ _ xs

theorem ewmSpan_length (span : ℕ) (xs : List ℚ) : (ewmSpan span xs).length = xs.length :=
  ewmAux_length _ _ _ xs

theorem deltasOf_length : ∀ xs : List ℚ, (deltasOf xs).length = xs.length - 1
  | [] => rfl
  | [_] => rfl
  | x :: y :: rest => by
    rw [deltasOf]
    have := deltasOf_length (y :: rest)
    simp only [List.length_cons] at this ⊢
    omega

theorem gainsSeries_length (closes : List ℚ) :
    (gainsSeries closes).length = closes.length - 1 + 1 := by
  simp [gainsSeries, deltasOf_length]

/-! ## C7 — graceful degradation on short histories -/

/-- C7 (amended): the composite evaluation degrades to the neutral
result (confidence 0) whenever the history is shorter than
`min_required`; each indicator analysis degrades to NEUTRAL with
strength 0 below its own, smaller, minimum (RSI below its window, MACD
and the EMA triplet below two bars, Bollinger below its window).  An
individual indicator may, however, emit a non-neutral signal on
histories between its own minimum and `min_required`; only the composite
guard enforces the full minimum. -/
theorem C7_short_history_neutral :
    (∀ market_data : List MBar, market_data.length < min_required →
      calculate_integrated_signal market_data = ⟨Sig.NEUTRO, 0, none, 0⟩) ∧
    (∀ closes : List ℚ, closes.length < RSI_PERIOD →
      analyze_rsi_signal (calculate_rsi_last closes) = ⟨Sig.NEUTRO, 0⟩) ∧
    (∀ closes : List ℚ, closes.length < 2 →
      analyze_macd_signal (calculate_macd closes) = ⟨Sig.NEUTRO, 0⟩) ∧
    (∀ closes : List ℚ, closes.length < 2 →
      analyze_ema_signal (lastD closes 0) (calculate_ema closes) = ⟨Sig.NEUTRO, 0⟩) ∧
    (∀ (closes : List ℚ) (price : ℚ), closes.length < BB_PERIOD →
      analyze_bollinger_signal price (calculate_bollinger_bands_last closes) =
        ⟨Sig.NEUTRO, 0⟩) := by
  refine ⟨?_, ?_, ?_, ?_, ?_⟩
  · intro market_data h
    unfold calculate_integrated_signal
    rw [if_pos h]
  · intro closes h
    have hg : (gainsSeries closes).length < RSI_PERIOD := by
      rw [gainsSeries_length, RSI_PERIOD] at *
      omega
    have h1 : calculate_rsi_last closes = FQ.nan := by
      unfold calculate_rsi_last
      rw [if_pos (Or.inl hg)]
    rw [h1]; rfl
  · intro closes h
    have hm : (calculate_macd closes).macd.length < 2 := by
      unfold calculate_macd
      dsimp only
      rw [List.length_zipWith, ewmSpan_length, ewmSpan_length]
      omega
    unfold analyze_macd_signal
    rw [if_pos hm]
  · intro closes h
    have he : (calculate_ema closes).ema_short.length < 2 := by
      unfold calculate_ema
      dsimp only
      rw [ewmSpan_length]
      exact h
    unfold analyze_ema_signal
    rw [if_pos he]
  · intro closes price h
    have hb : calculate_bollinger_bands_last closes = none := by
      unfold calculate_bollinger_bands_last
      rw [if_pos (Or.inl h)]
    rw [hb]; rfl

/-- C7 witness: instances of every graceful-degradation branch at short
concrete inputs. -/
theorem C7_short_history_neutral_witness :
    calculate_integrated_signal [flatBar 1, flatBar 2] = ⟨Sig.NEUTRO, 0, none, 0⟩ ∧
    analyze_rsi_signal (calculate_rsi_last [1, 2, 3]) = ⟨Sig.NEUTRO, 0⟩ ∧
    analyze_macd_signal (calculate_macd [1]) = ⟨Sig.NEUTRO, 0⟩ ∧
    analyze_ema_signal (lastD [1] 0) (calculate_ema [1]) = ⟨Sig.NEUTRO, 0⟩ ∧
    analyze_bollinger_signal 1 (calculate_bollinger_bands_last [1, 2, 3]) = ⟨Sig.NEUTRO, 0⟩ := by
  refine ⟨C7_short_history_neutral.1 _ (by norm_num [min_required, RSI_PERIOD, MACD_SLOW,
      BB_PERIOD, FALLBACK_EMA_FILTER, MIN_DATA_BUFFER]),
    C7_short_history_neutral.2.1 _ (by norm_num [RSI_PERIOD]),
    C7_short_history_neutral.2.2.1 _ (by norm_num),
    C7_short_history_neutral.2.2.2.1 _ (by norm_num),
    C7_short_history_neutral.2.2.2.2 _ _ (by norm_num [BB_PERIOD])⟩

set_option maxRecDepth 4000 in
/-- C7 counterexample: the claim as stated is false — a 20-bar strictly
rising history is shorter than the composite minimum (33), yet the MACD
analysis alone returns BUY with a positive strength rather than
NEUTRAL. -/
theorem C7_short_history_neutral_counterexample :
    ([(1 : ℚ), 2, 3, 4, 5, 6, 7, 8, 9, 10, 11, 12, 13, 14, 15, 16, 17, 18, 19,
        20].length < min_required) ∧
    (analyze_macd_signal (calculate_macd
      [(1 : ℚ), 2, 3, 4, 5, 6, 7, 8, 9, 10, 11, 12, 13, 14, 15, 16, 17, 18, 19,
        20])).signal = Sig.COMPRAR ∧
    (analyze_macd_signal (calculate_macd
      [(1 : ℚ), 2, 3, 4, 5, 6, 7, 8, 9, 10, 11, 12, 13, 14, 15, 16, 17, 18, 19,
        20])).strength > 0 := by
  refine ⟨by decide, by decide, by decide⟩

/-! ## Constant-series lemmas (for C8) -/

theorem ewmAux_const (alpha c : ℚ) (halpha : 0 ≤ 1 - alpha) :
    ∀ (n : ℕ) (num den : ℚ), 0 ≤ den → num = c * den →
      ewmAux alpha num den (List.replicate n c) = List.replicate n c
  | 0, _, _, _, _ => rfl
  | n + 1, num, den, hden, hnum => by
    rw [List.replicate_succ, ewmAux]
    have hden' : (0 : ℚ) < 1 + (1 - alpha) * den := by nlinarith
    have e1 : c + (1 - alpha) * num = c * (1 + (1 - alpha) * den) := by rw [hnum]; ring
    rw [e1, mul_div_cancel_right₀ _ (ne_of_gt hden'),
      ewmAux_const alpha c halpha n _ _ (le_of_lt hden') rfl]

theorem ewmSpan_const (span : ℕ) (hspan : 1 ≤ span) (n : ℕ) (c : ℚ) :
    ewmSpan span (List.replicate n c) = List.replicate n c := by
  unfold ewmSpan ewmAdjusted
  apply ewmAux_const
  · have h1 : (1 : ℚ) ≤ (span : ℚ) := by exact_mod_cast hspan
    have h2 : (2 : ℚ) / ((span : ℚ) + 1) ≤ 1 := by
      rw [div_le_one (by linarith)]
      linarith
    linarith
  · exact le_refl 0
  · exact (mul_zero c).symm

theorem zipWith_sub_self (l : List ℚ) :
    List.zipWith (· - ·) l l = List.replicate l.length 0 := by
  induction l with
  | nil => rfl
  | cons x xs ih => simp [List.replicate_succ, ih]

theorem deltasOf_replicate (c : ℚ) :
    ∀ n : ℕ, deltasOf (List.replicate n c) = List.replicate (n - 1) 0
  | 0 => rfl
  | 1 => rfl
  | n + 2 => by
    rw [List.replicate_succ, List.replicate_succ, deltasOf, ← List.replicate_succ]
    have := deltasOf_replicate c (n + 1)
    rw [this]
    simp [List.replicate_succ]

theorem lastD_replicate (c d : ℚ) : ∀ n : ℕ, 1 ≤ n → lastD (List.replicate n c) d = c
  | 1, _ => rfl
  | n + 2, _ => by
    rw [List.replicate_succ, List.replicate_succ, lastD, List.getLast?_cons_cons,
      ← List.replicate_succ]
    exact lastD_replicate c d (n + 1) (by omega)

theorem last2D_replicate (c d : ℚ) (n : ℕ) (hn : 2 ≤ n) :
    last2D (List.replicate n c) d = c := by
  unfold last2D
  rw [List.dropLast_replicate]
  exact lastD_replicate c d (n - 1) (by omega)

theorem listMean_replicate_zero (k : ℕ) : listMean (List.replicate k (0 : ℚ)) = 0 := by
  unfold listMean
  rw [List.sum_replicate]
  simp

theorem listMean_replicate (k : ℕ) (hk : k ≠ 0) (c : ℚ) :
    listMean (List.replicate k c) = c := by
  unfold listMean
  rw [List.sum_replicate, List.length_replicate, nsmul_eq_mul]
  exact mul_div_cancel_left₀ c (Nat.cast_ne_zero.mpr hk)

theorem gainsSeries_replicate (n : ℕ) (c : ℚ) :
    gainsSeries (List.replicate n c) = List.replicate (n - 1 + 1) 0 := by
  unfold gainsSeries
  rw [deltasOf_replicate, List.map_replicate, List.replicate_succ]
  norm_num

theorem lossesSeries_replicate (n : ℕ) (c : ℚ) :
    lossesSeries (List.replicate n c) = List.replicate (n - 1 + 1) 0 := by
  unfold lossesSeries
  rw [deltasOf_replicate, List.map_replicate, List.replicate_succ]
  norm_num

theorem rsi_flat (n : ℕ) (c : ℚ) (hn : RSI_PERIOD ≤ n) :
    calculate_rsi_last (List.replicate n c) = FQ.nan := by
  have hlen : (gainsSeries (List.replicate n c)).length = n - 1 + 1 := by
    rw [gainsSeries_replicate, List.length_replicate]
  have hguard : ¬ ((gainsSeries (List.replicate n c)).length < RSI_PERIOD ∨ RSI_PERIOD = 0) := by
    rw [hlen, RSI_PERIOD] at *
    omega
  have hgain : avgGainLast (List.replicate n c) RSI_PERIOD = 0 := by
    unfold avgGainLast
    rw [gainsSeries_replicate, List.drop_replicate, listMean_replicate_zero]
  have hloss : avgLossLast (List.replicate n c) RSI_PERIOD = 0 := by
    unfold avgLossLast
    rw [lossesSeries_replicate, List.drop_replicate, listMean_replicate_zero]
  unfold calculate_rsi_last
  rw [if_neg hguard]
  dsimp only
  rw [if_pos hloss, if_pos hgain]

theorem macd_flat (n : ℕ) (c : ℚ) (hn : 2 ≤ n) :
    analyze_macd_signal (calculate_macd (List.replicate n c)) = ⟨Sig.NEUTRO, 0⟩ := by
  have hm : calculate_macd (List.replicate n c) =
      ⟨List.replicate n 0, List.replicate n 0, List.replicate n 0⟩ := by
    unfold calculate_macd
    rw [ewmSpan_const MACD_FAST (by rw [MACD_FAST]; omega),
      ewmSpan_const MACD_SLOW (by rw [MACD_SLOW]; omega)]
    dsimp only
    rw [zipWith_sub_self, List.length_replicate,
      ewmSpan_const MACD_SIGNAL (by rw [MACD_SIGNAL]; omega),
      zipWith_sub_self, List.length_replicate]
  rw [hm]
  unfold analyze_macd_signal
  rw [if_neg (by rw [List.length_replicate]; omega)]
  dsimp only
  rw [lastD_replicate 0 0 n (by omega), last2D_replicate 0 0 n hn]
  rw [if_neg (by simp), if_neg (by simp), if_neg (by simp), if_neg (by simp)]

theorem ema_flat (n : ℕ) (c : ℚ) (hn : 2 ≤ n) :
    analyze_ema_signal c (calculate_ema (List.replicate n c)) = ⟨Sig.NEUTRO, 0⟩ := by
  have he : calculate_ema (List.replicate n c) =
      ⟨List.replicate n c, List.replicate n c, List.replicate n c⟩ := by
    unfold calculate_ema
    rw [ewmSpan_const EMA_SHORT (by rw [EMA_SHORT]; omega),
      ewmSpan_const EMA_LONG (by rw [EMA_LONG]; omega),
      ewmSpan_const EMA_FILTER (by rw [EMA_FILTER]; omega)]
  rw [he]
  unfold analyze_ema_signal
  rw [if_neg (by rw [List.length_replicate]; omega)]
  dsimp only
  rw [lastD_replicate c 0 n (by omega), last2D_replicate c 0 n hn]
  rw [if_neg (by simp), if_neg (by simp), if_neg (by simp), if_neg (by simp)]

theorem rollingVarLast_replicate (n : ℕ) (c : ℚ) (hn : BB_PERIOD ≤ n) :
    rollingVarLast (List.replicate n c) BB_PERIOD = 0 := by
  have h14 : n - (n - BB_PERIOD) = BB_PERIOD := by omega
  unfold rollingVarLast
  rw [List.length_replicate, List.drop_replicate, h14]
  simp only [listMean_replicate BB_PERIOD (by rw [BB_PERIOD]; omega), List.map_replicate]
  simp

theorem bands_flat (n : ℕ) (c : ℚ) (hn : BB_PERIOD ≤ n) :
    calculate_bollinger_bands_last (List.replicate n c) =
      some ⟨(c : ℝ), (c : ℝ), (c : ℝ)⟩ := by
  have h14 : n - (n - BB_PERIOD) = BB_PERIOD := by omega
  unfold calculate_bollinger_bands_last
  rw [if_neg (by rw [List.length_replicate]; push_neg; exact ⟨by omega, by rw [BB_PERIOD]; omega⟩)]
  simp only [List.length_replicate, List.drop_replicate, h14,
    listMean_replicate BB_PERIOD (by rw [BB_PERIOD]; omega),
    rollingVarLast_replicate n c hn]
  norm_num

theorem bb_flat (n : ℕ) (c : ℚ) (hn : BB_PERIOD ≤ n) :
    analyze_bollinger_signal c (calculate_bollinger_bands_last (List.replicate n c)) =
      ⟨Sig.COMPRAR, 0⟩ := by
  rw [bands_flat n c hn]
  unfold analyze_bollinger_signal
  dsimp only
  rw [if_pos (le_refl (c : ℝ))]
  congr 1
  rw [sub_self, if_neg (lt_irrefl (0 : ℝ)), zero_mul]
  exact min_eq_left zero_le_one

theorem closesOf_eq_replicate (bars : List MBar) (c : ℚ) (hc : ∀ b ∈ bars, b.close = c) :
    closesOf bars = List.replicate bars.length c := by
  have hmem : ∀ x ∈ bars.map MBar.close, x = c := by
    intro x hx
    rcases List.mem_map.mp hx with ⟨b, hb, rfl⟩
    exact hc b hb
  have := List.eq_replicate_of_mem hmem
  rwa [List.length_map] at this

/-! ## C8 — identical prices -/

/-- C8 (amended): on a history of at least 50 bars with identical
closing prices, the RSI, MACD and EMA-triplet analyses return NEUTRAL
with strength 0 and the composite signal is NEUTRAL with confidence 0 —
but the Bollinger analysis returns BUY with strength 0 (the degenerate
bands collapse onto the price, and `price ≤ lower` holds with equality),
not NEUTRAL as the claim states. -/
theorem C8_flat_history (bars : List MBar) (c : ℚ) (h50 : 50 ≤ bars.length)
    (hc : ∀ b ∈ bars, b.close = c) (hv : ∀ b ∈ bars, b.volume ≠ 0) :
    analyze_rsi_signal (calculate_rsi_last (closesOf bars)) = ⟨Sig.NEUTRO, 0⟩ ∧
    analyze_macd_signal (calculate_macd (closesOf bars)) = ⟨Sig.NEUTRO, 0⟩ ∧
    analyze_ema_signal (lastD (closesOf bars) 0) (calculate_ema (closesOf bars)) =
      ⟨Sig.NEUTRO, 0⟩ ∧
    analyze_bollinger_signal (lastD (closesOf bars) 0)
      (calculate_bollinger_bands_last (closesOf bars)) = ⟨Sig.COMPRAR, 0⟩ ∧
    (calculate_integrated_signal bars).signal = Sig.NEUTRO ∧
    (calculate_integrated_signal bars).confidence = 0 := by
  have hcl : closesOf bars = List.replicate bars.length c := closesOf_eq_replicate bars c hc
  have hlast : lastD (closesOf bars) 0 = c := by
    rw [hcl]; exact lastD_replicate c 0 _ (by omega)
  have hrsi : analyze_rsi_signal (calculate_rsi_last (closesOf bars)) = ⟨Sig.NEUTRO, 0⟩ := by
    rw [hcl, rsi_flat _ c (by rw [RSI_PERIOD]; omega)]; rfl
  have hmacd : analyze_macd_signal (calculate_macd (closesOf bars)) = ⟨Sig.NEUTRO, 0⟩ := by
    rw [hcl]; exact macd_flat _ c (by omega)
  have hema : analyze_ema_signal (lastD (closesOf bars) 0) (calculate_ema (closesOf bars)) =
      ⟨Sig.NEUTRO, 0⟩ := by
    rw [hlast, hcl]; exact ema_flat _ c (by omega)
  have hbb : analyze_bollinger_signal (lastD (closesOf bars) 0)
      (calculate_bollinger_bands_last (closesOf bars)) = ⟨Sig.COMPRAR, 0⟩ := by
    rw [hlast, hcl]; exact bb_flat _ c (by rw [BB_PERIOD]; omega)
  have hscore : integratedScore (closesOf bars) = 0 := by
    unfold integratedScore rsiRes macdRes bbRes emaRes
    rw [hrsi, hmacd, hema, hbb]
    norm_num [contrib, contribR]
  have hnbuy : ¬ (integratedScore (closesOf bars) > (INTEGRATED_SIGNAL_THRESHOLD_BUY : ℝ)) := by
    rw [hscore]; norm_num [INTEGRATED_SIGNAL_THRESHOLD_BUY]
  have hnsell : ¬ (integratedScore (closesOf bars) < (INTEGRATED_SIGNAL_THRESHOLD_SELL : ℝ)) := by
    rw [hscore]; norm_num [INTEGRATED_SIGNAL_THRESHOLD_SELL]
  have hcomp : calculate_integrated_signal bars =
      ⟨Sig.NEUTRO, 0,
        some ⟨rsiRes (closesOf bars), macdRes (closesOf bars), bbRes (closesOf bars),
          emaRes (closesOf bars)⟩,
        integratedScore (closesOf bars)⟩ := by
    unfold calculate_integrated_signal
    rw [if_neg (by rw [min_required, RSI_PERIOD, MACD_SLOW, BB_PERIOD, FALLBACK_EMA_FILTER,
      MIN_DATA_BUFFER]; omega)]
    rw [if_neg hnbuy, if_neg hnsell]
  exact ⟨hrsi, hmacd, hema, hbb, by rw [hcomp], by rw [hcomp]⟩

/-- C8 witness: the amended theorem applied at 50 concrete flat bars. -/
theorem C8_flat_history_witness :
    (calculate_integrated_signal (List.replicate 50 (flatBar 100))).signal = Sig.NEUTRO ∧
    (calculate_integrated_signal (List.replicate 50 (flatBar 100))).confidence = 0 ∧
    analyze_rsi_signal (calculate_rsi_last (closesOf (List.replicate 50 (flatBar 100)))) =
      ⟨Sig.NEUTRO, 0⟩ := by
  have h := C8_flat_history (List.replicate 50 (flatBar 100)) 100 (by simp)
    (fun b hb => by rw [List.eq_of_mem_replicate hb]; rfl)
    (fun b hb => by rw [List.eq_of_mem_replicate hb]; norm_num [flatBar])
  exact ⟨h.2.2.2.2.1, h.2.2.2.2.2, h.1⟩

/-- C8 counterexample: the claim as stated is false — on 50 identical
bars the Bollinger analysis returns BUY (with strength 0), not
NEUTRAL. -/
theorem C8_flat_history_counterexample :
    (List.replicate 50 (flatBar 100)).length = 50 ∧
    (∀ b ∈ List.replicate 50 (flatBar 100), b.close = 100 ∧ b.volume ≠ 0) ∧
    (analyze_bollinger_signal (lastD (closesOf (List.replicate 50 (flatBar 100))) 0)
      (calculate_bollinger_bands_last (closesOf (List.replicate 50 (flatBar 100))))).signal =
      Sig.COMPRAR := by
  refine ⟨by simp, ?_, ?_⟩
  · intro b hb
    rw [List.eq_of_mem_replicate hb]
    exact ⟨rfl, by norm_num [flatBar]⟩
  · have hcl : closesOf (List.replicate 50 (flatBar 100)) = List.replicate 50 (100 : ℚ) := by
      simp [closesOf, flatBar]
    rw [hcl, lastD_replicate 100 0 50 (by omega), bb_flat 50 100 (by rw [BB_PERIOD]; omega)]

/-! ## C2 — stream buffer invariant -/

theorem chain_drop {α : Type} {R : α → α → Prop} :
    ∀ (n : ℕ) (l : List α), List.Chain' R l → List.Chain' R (l.drop n)
  | 0, _, h => h
  | _ + 1, [], _ => List.chain'_nil
  | n + 1, _ :: l, h => by
    rw [List.drop_succ_cons]
    exact chain_drop n l h.tail

theorem mem_setA {β : Type} (k : String) (v : β) :
    ∀ (l : List (String × β)) (kb), kb ∈ setA k v l → kb = (k, v) ∨ kb ∈ l
  | [], kb, h => Or.inl (by simpa [setA] using h)
  | kv :: rest, kb, h => by
    unfold setA at h
    by_cases hk : kv.1 = k
    · rw [if_pos hk] at h
      rcases List.mem_cons.mp h with h1 | h1
      · exact Or.inl h1
      · exact Or.inr (List.mem_cons_of_mem _ h1)
    · rw [if_neg hk] at h
      rcases List.mem_cons.mp h with h1 | h1
      · exact Or.inr (h1 ▸ List.mem_cons_self _ _)
      · rcases mem_setA k v rest kb h1 with h2 | h2
        · exact Or.inl h2
        · exact Or.inr (List.mem_cons_of_mem _ h2)

theorem lookup_inv {β : Type} (P : β → Prop) :
    ∀ (l : List (String × β)), (∀ kb ∈ l, P kb.2) →
      ∀ (k : String) (b : β), l.lookup k = some b → P b
  | [], _, k, b, hl => by simp [List.lookup] at hl
  | kv :: rest, h, k, b, hl => by
    cases hbe : (k == kv.1) with
    | true =>
      simp only [List.lookup, hbe] at hl
      exact (Option.some_inj.mp hl) ▸ h kv (List.mem_cons_self _ _)
    | false =>
      simp only [List.lookup, hbe] at hl
      exact lookup_inv P rest (fun x hx => h x (List.mem_cons_of_mem _ hx)) k b hl

theorem bufferOk_push (b : StreamBuffer) (c : Candle) (hb : bufferOk b)
    (hle : ∀ x ∈ b.bars, x.time ≤ c.time) : bufferOk (pushCandle b c) := by
  have hchain : List.Chain' (fun a b => a.time ≤ b.time) (b.bars ++ [c]) := by
    rw [List.chain'_append]
    refine ⟨hb.2, List.chain'_singleton c, ?_⟩
    intro x hx y hy
    rw [List.head?_cons, Option.mem_some_iff] at hy
    exact hy ▸ hle x (List.mem_of_mem_getLast? hx)
  constructor
  · intro m hm
    have hml : b.maxlen = some m := hm
    unfold pushCandle
    rw [hml]
    dsimp only
    rw [List.length_drop]
    omega
  · unfold pushCandle
    cases hml : b.maxlen with
    | none => exact hchain
    | some m' =>
      dsimp only
      exact chain_drop _ _ hchain

theorem streamInv_step (s : RTDMState) (e : StreamEvent) (hinv : streamInv s)
    (hord : match e with
      | StreamEvent.message k c =>
        c.is_closed = true →
          ∀ b ∈ ((s.data_buffers.lookup k).getD ⟨none, []⟩).bars, b.time ≤ c.time
      | _ => True) : streamInv (streamStep s e) := by
  cases e with
  | start k limit =>
    dsimp only [streamStep]
    intro kb hkb
    rcases mem_setA k ⟨some limit, []⟩ s.data_buffers kb hkb with h1 | h1
    · rw [h1]
      exact ⟨fun m _ => Nat.zero_le m, List.chain'_nil⟩
    · exact hinv kb h1
  | stop k =>
    dsimp only [streamStep]
    intro kb hkb
    unfold delA at hkb
    exact hinv kb (List.mem_of_mem_filter hkb)
  | message k c =>
    have hord' : c.is_closed = true →
        ∀ b ∈ ((s.data_buffers.lookup k).getD ⟨none, []⟩).bars, b.time ≤ c.time := hord
    dsimp only [streamStep]
    by_cases hcl : c.is_closed = true
    · rw [if_pos hcl]
      intro kb hkb
      dsimp only at hkb
      rcases mem_setA k _ _ kb hkb with h1 | h1
      · rw [h1]
        apply bufferOk_push
        · cases hl : s.data_buffers.lookup k with
          | none =>
            rw [Option.getD_none]
            exact ⟨fun m hm => by simp at hm, List.chain'_nil⟩
          | some b =>
            rw [Option.getD_some]
            exact lookup_inv bufferOk s.data_buffers hinv k b hl
        · exact hord' hcl
      · exact hinv kb h1
    · rw [if_neg hcl]
      intro kb hkb
      exact hinv kb hkb

/-- `deque.append` keeps the length within `maxlen` no matter what is
appended: the capacity bound needs no hypothesis at all. -/
theorem capacityOk_push (b : StreamBuffer) (c : Candle) : capacityOk (pushCandle b c) := by
  intro m hm
  have hml : b.maxlen = some m := hm
  unfold pushCandle
  rw [hml]
  dsimp only
  rw [List.length_drop]
  omega

theorem capacityInv_step (s : RTDMState) (e : StreamEvent) (hinv : capacityInv s) :
    capacityInv (streamStep s e) := by
  cases e with
  | start k limit =>
    dsimp only [streamStep]
    intro kb hkb
    rcases mem_setA k ⟨some limit, []⟩ s.data_buffers kb hkb with h1 | h1
    · rw [h1]
      exact fun m _ => Nat.zero_le m
    · exact hinv kb h1
  | stop k =>
    dsimp only [streamStep]
    intro kb hkb
    unfold delA at hkb
    exact hinv kb (List.mem_of_mem_filter hkb)
  | message k c =>
    dsimp only [streamStep]
    by_cases hcl : c.is_closed = true
    · rw [if_pos hcl]
      intro kb hkb
      dsimp only at hkb
      rcases mem_setA k _ _ kb hkb with h1 | h1
      · rw [h1]
        exact capacityOk_push _ c
      · exact hinv kb h1
    · rw [if_neg hcl]
      intro kb hkb
      exact hinv kb hkb

theorem capacityInv_run :
    ∀ (es : List StreamEvent) (s : RTDMState), capacityInv s → capacityInv (streamRun s es)
  | [], _, hinv => hinv
  | e :: es, s, hinv => capacityInv_run es (streamStep s e) (capacityInv_step s e hinv)

theorem streamInv_run :
    ∀ (es : List StreamEvent) (s : RTDMState),
      streamInv s → orderlyFrom s es → streamInv (streamRun s es)
  | [], _, hinv, _ => hinv
  | e :: es, s, hinv, hord =>
    streamInv_run es (streamStep s e) (streamInv_step s e hinv hord.1) hord.2

/-- C2 (amended): the capacity bound holds unconditionally — after ANY
event sequence, every buffer that carries a capacity (`maxlen`) holds at
most that many closed bars, with no assumption on message order; and —
provided each closed bar arrives with an open time at least that of
every bar already buffered for its key — every buffer is additionally
chronologically non-decreasing.  (A buffer created by `start_stream`
carries `maxlen = limit`; a closed-bar message for a key with no buffer
— never started, or removed by `stop_stream` — recreates an unbounded
one, and out-of-order arrival is stored as-is.) -/
theorem C2_stream_buffer_invariant :
    (∀ (es : List StreamEvent) (s : RTDMState),
      capacityInv s → capacityInv (streamRun s es)) ∧
    (∀ (es : List StreamEvent) (s : RTDMState),
      streamInv s → orderlyFrom s es → streamInv (streamRun s es)) :=
  ⟨capacityInv_run, streamInv_run⟩

/-- C2 witness: the capacity half applied to a DISORDERLY trace (bars
with open times 2 then 1 into a capacity-5 stream) — the bound holds
with no ordering assumption; and the full invariant applied to an
in-order trace of capacity 2 fed three closed bars (the oldest bar was
evicted). -/
theorem C2_stream_buffer_invariant_witness :
    capacityInv (streamRun RTDMState.initial
      [StreamEvent.start "BTCUSDT_1m" 5,
       StreamEvent.message "BTCUSDT_1m" ⟨2, 0, 0, 0, 0, 0, true⟩,
       StreamEvent.message "BTCUSDT_1m" ⟨1, 0, 0, 0, 0, 0, true⟩]) ∧
    streamInv (streamRun RTDMState.initial
      [StreamEvent.start "BTCUSDT_1m" 2,
       StreamEvent.message "BTCUSDT_1m" ⟨1, 0, 0, 0, 0, 0, true⟩,
       StreamEvent.message "BTCUSDT_1m" ⟨2, 0, 0, 0, 0, 0, true⟩,
       StreamEvent.message "BTCUSDT_1m" ⟨3, 0, 0, 0, 0, 0, true⟩]) ∧
    ((streamRun RTDMState.initial
      [StreamEvent.start "BTCUSDT_1m" 2,
       StreamEvent.message "BTCUSDT_1m" ⟨1, 0, 0, 0, 0, 0, true⟩,
       StreamEvent.message "BTCUSDT_1m" ⟨2, 0, 0, 0, 0, 0, true⟩,
       StreamEvent.message "BTCUSDT_1m" ⟨3, 0, 0, 0, 0, 0, true⟩]).data_buffers.lookup
        "BTCUSDT_1m").map (fun b => b.bars.map Candle.time) = some [2, 3] :=
  ⟨C2_stream_buffer_invariant.1 _ RTDMState.initial (by decide),
   C2_stream_buffer_invariant.2 _ RTDMState.initial (by decide) (by decide),
   by decide⟩

/-- C2 counterexample: the claim as stated is false — `_on_message`
performs no chronological check, so a closed bar older than the buffered
ones is appended as-is and the buffer is no longer non-decreasing by
open time. -/
theorem C2_stream_buffer_invariant_counterexample :
    ((streamRun RTDMState.initial
      [StreamEvent.start "BTCUSDT_1m" 5,
       StreamEvent.message "BTCUSDT_1m" ⟨2, 0, 0, 0, 0, 0, true⟩,
       StreamEvent.message "BTCUSDT_1m" ⟨1, 0, 0, 0, 0, 0, true⟩]).data_buffers.lookup
        "BTCUSDT_1m").map (fun b => b.bars.map Candle.time) = some [2, 1] ∧
    ¬ streamInv (streamRun RTDMState.initial
      [StreamEvent.start "BTCUSDT_1m" 5,
       StreamEvent.message "BTCUSDT_1m" ⟨2, 0, 0, 0, 0, 0, true⟩,
       StreamEvent.message "BTCUSDT_1m" ⟨1, 0, 0, 0, 0, 0, true⟩]) := by
  constructor
  · decide
  · decide

/-! ## Evaluation of the composite signal on `dataBuy` (for C1) -/

theorem dataBuy_bands :
    calculate_bollinger_bands_last (closesOf dataBuy) = some ⟨104, 100, 96⟩ := by
  unfold calculate_bollinger_bands_last
  rw [if_neg (by decide)]
  dsimp only
  rw [show listMean ((closesOf dataBuy).drop ((closesOf dataBuy).length - BB_PERIOD)) =
      (100 : ℚ) from by decide,
    show rollingVarLast (closesOf dataBuy) BB_PERIOD = (4 : ℚ) from by decide]
  have hsqrt : Real.sqrt ((4 : ℚ) : ℝ) = 2 := by
    rw [show ((4 : ℚ) : ℝ) = (2 : ℝ) ^ 2 by norm_num, Real.sqrt_sq (by norm_num : (0:ℝ) ≤ 2)]
  rw [hsqrt]
  norm_num [BB_STD]

theorem dataBuy_bb : bbRes (closesOf dataBuy) = ⟨Sig.COMPRAR, ((1/4 : ℚ) : ℝ)⟩ := by
  unfold bbRes
  rw [show lastD (closesOf dataBuy) 0 = (95 : ℚ) from by decide, dataBuy_bands]
  unfold analyze_bollinger_signal
  dsimp only
  rw [if_pos (by push_cast; norm_num : ((95 : ℚ) : ℝ) ≤ 96)]
  congr 1
  rw [if_pos (by norm_num : (104 : ℝ) - 96 > 0)]
  push_cast
  norm_num

set_option maxRecDepth 8000 in
theorem dataBuy_score :
    integratedScore (closesOf dataBuy) > ((INTEGRATED_SIGNAL_THRESHOLD_BUY : ℚ) : ℝ) := by
  have hbbc : contribR BB_WEIGHT (bbRes (closesOf dataBuy)) = ((1/16 : ℚ) : ℝ) := by
    rw [dataBuy_bb]
    unfold contribR
    dsimp only
    rw [BB_WEIGHT]
    push_cast
    norm_num
  unfold integratedScore
  rw [hbbc, ← Rat.cast_add, ← Rat.cast_add]
  exact_mod_cast (by decide : INTEGRATED_SIGNAL_THRESHOLD_BUY <
    contrib RSI_WEIGHT (rsiRes (closesOf dataBuy)) +
      contrib MACD_WEIGHT (macdRes (closesOf dataBuy)) + 1/16 +
      contrib EMA_WEIGHT (emaRes (closesOf dataBuy)))

theorem dataBuy_primary_signal :
    (calculate_integrated_signal dataBuy).signal = Sig.COMPRAR := by
  unfold calculate_integrated_signal
  rw [if_neg (by decide : ¬ (dataBuy.length < min_required))]
  dsimp only
  rw [if_pos dataBuy_score]

theorem trend_nil :
    analyze_higher_timeframe_trend [] =
      ⟨Trend.SIDEWAYS, 0, PriceVsEma.NEUTRAL, EmaSlope.FLAT, 0, 0⟩ := by
  unfold analyze_higher_timeframe_trend
  rw [if_pos (by decide)]

theorem integrated_nil : calculate_integrated_signal [] = ⟨Sig.NEUTRO, 0, none, 0⟩ := by
  unfold calculate_integrated_signal
  rw [if_pos (by decide)]

/-! ## C1 — multi-timeframe approval of a primary BUY -/

open Classical in
/-- C1 (amended): for a primary BUY, a BEARISH confirmation trend yields
WAIT with `approved = false`; a non-BEARISH trend approves the BUY only
when additionally the secondary composite is also BUY (confidence
boosted 20%, capped at 1), or the trend is BULLISH with strength above
0.3 (confidence unchanged), or the price sits ABOVE the filter EMA
(confidence scaled by 0.8); when none of the three holds, the result is
WAIT with `approved = false` even though the trend is not BEARISH. -/
theorem C1_mta_buy_filter (md : MultiData)
    (h : (calculate_integrated_signal md.primary).signal = Sig.COMPRAR) :
    ((analyze_higher_timeframe_trend md.confirmation).trend = Trend.BEARISH →
      calculate_multi_timeframe_signal (some md) = ⟨Sig.NEUTRO, 0, false⟩) ∧
    ((analyze_higher_timeframe_trend md.confirmation).trend ≠ Trend.BEARISH →
      ((calculate_integrated_signal md.secondary).signal = Sig.COMPRAR →
        calculate_multi_timeframe_signal (some md) =
          ⟨Sig.COMPRAR,
            min ((calculate_integrated_signal md.primary).confidence * (12/10 : ℝ)) 1, true⟩) ∧
      ((calculate_integrated_signal md.secondary).signal ≠ Sig.COMPRAR →
        ((analyze_higher_timeframe_trend md.confirmation).trend = Trend.BULLISH ∧
            (analyze_higher_timeframe_trend md.confirmation).strength > 3/10 →
          calculate_multi_timeframe_signal (some md) =
            ⟨Sig.COMPRAR, (calculate_integrated_signal md.primary).confidence, true⟩) ∧
        (¬ ((analyze_higher_timeframe_trend md.confirmation).trend = Trend.BULLISH ∧
            (analyze_higher_timeframe_trend md.confirmation).strength > 3/10) →
          ((analyze_higher_timeframe_trend md.confirmation).price_vs_ema = PriceVsEma.ABOVE →
            calculate_multi_timeframe_signal (some md) =
              ⟨Sig.COMPRAR,
                (calculate_integrated_signal md.primary).confidence * (8/10 : ℝ), true⟩) ∧
          ((analyze_higher_timeframe_trend md.confirmation).price_vs_ema ≠ PriceVsEma.ABOVE →
            calculate_multi_timeframe_signal (some md) = ⟨Sig.NEUTRO, 0, false⟩)))) := by
  unfold calculate_multi_timeframe_signal
  dsimp only
  rw [if_pos h]
  constructor
  · intro hb
    rw [if_neg (by rw [hb]; rintro (hx | hx) <;> exact Trend.noConfusion hx)]
  · intro hnb
    have htf : (analyze_higher_timeframe_trend md.confirmation).trend = Trend.BULLISH ∨
        (analyze_higher_timeframe_trend md.confirmation).trend = Trend.SIDEWAYS := by
      cases hx : (analyze_higher_timeframe_trend md.confirmation).trend with
      | BULLISH => exact Or.inl rfl
      | BEARISH => exact absurd hx hnb
      | SIDEWAYS => exact Or.inr rfl
    rw [if_pos htf]
    constructor
    · intro hsec
      rw [if_pos hsec]
    · intro hnsec
      rw [if_neg hnsec]
      constructor
      · intro hstrong
        rw [if_pos hstrong]
      · intro hnstrong
        rw [if_neg hnstrong]
        constructor
        · intro habove
          rw [if_pos habove]
        · intro hnabove
          rw [if_neg hnabove]

/-- Direct evaluation of the MTA filter on a primary BUY with empty
secondary and confirmation histories: trend SIDEWAYS, secondary NEUTRAL,
price-vs-EMA NEUTRAL — the BUY is rejected. -/
theorem mtaBuy_eval :
    calculate_multi_timeframe_signal (some ⟨dataBuy, [], []⟩) = ⟨Sig.NEUTRO, 0, false⟩ := by
  unfold calculate_multi_timeframe_signal
  dsimp only
  rw [if_pos dataBuy_primary_signal]
  rw [if_pos (by rw [trend_nil]; exact Or.inr rfl)]
  rw [if_neg (by rw [integrated_nil]; exact fun hx => Sig.noConfusion hx)]
  rw [if_neg (by rw [trend_nil]; rintro ⟨hx, _⟩; exact Trend.noConfusion hx)]
  rw [if_neg (by rw [trend_nil]; exact fun hx => PriceVsEma.noConfusion hx)]

/-- C1 witness: the amended theorem applied at a concrete primary-BUY
input whose confirmation trend is SIDEWAYS and secondary is NEUTRAL: the
BUY is rejected through the final branch. -/
theorem C1_mta_buy_filter_witness :
    (calculate_integrated_signal dataBuy).signal = Sig.COMPRAR ∧
    calculate_multi_timeframe_signal (some ⟨dataBuy, [], []⟩) = ⟨Sig.NEUTRO, 0, false⟩ := by
  refine ⟨dataBuy_primary_signal, ?_⟩
  have h := (C1_mta_buy_filter ⟨dataBuy, [], []⟩ dataBuy_primary_signal).2
    (by rw [trend_nil]; exact fun hx => Trend.noConfusion hx)
  exact (((h.2 (by rw [integrated_nil]; exact fun hx => Sig.noConfusion hx)).2
    (by rw [trend_nil]; rintro ⟨hx, _⟩; exact Trend.noConfusion hx)).2
    (by rw [trend_nil]; exact fun hx => PriceVsEma.noConfusion hx))

/-- C1 counterexample: the claim as stated is false — here the primary
signal is BUY and the confirmation trend is not BEARISH (it is
SIDEWAYS), yet the trend-filtered evaluation does NOT approve the BUY:
none of the three sub-conditions (secondary BUY, strongly BULLISH trend,
price above the filter EMA) holds, so the result is WAIT with
`approved = false`. -/
theorem C1_mta_buy_filter_counterexample :
    (calculate_integrated_signal dataBuy).signal = Sig.COMPRAR ∧
    (analyze_higher_timeframe_trend ([] : List MBar)).trend ≠ Trend.BEARISH ∧
    (calculate_multi_timeframe_signal (some ⟨dataBuy, [], []⟩)).mta_approved = false := by
  refine ⟨dataBuy_primary_signal, ?_, ?_⟩
  · rw [trend_nil]
    exact fun hx => Trend.noConfusion hx
  · rw [mtaBuy_eval]

/-! ## Evaluation of the composite signal on `dataExit` (for C3) -/

theorem dataExit_bands :
    calculate_bollinger_bands_last (closesOf dataExit) = some ⟨104, 100, 96⟩ := by
  unfold calculate_bollinger_bands_last
  rw [if_neg (by decide)]
  dsimp only
  rw [show listMean ((closesOf dataExit).drop ((closesOf dataExit).length - BB_PERIOD)) =
      (100 : ℚ) from by decide,
    show rollingVarLast (closesOf dataExit) BB_PERIOD = (4 : ℚ) from by decide]
  have hsqrt : Real.sqrt ((4 : ℚ) : ℝ) = 2 := by
    rw [show ((4 : ℚ) : ℝ) = (2 : ℝ) ^ 2 by norm_num, Real.sqrt_sq (by norm_num : (0:ℝ) ≤ 2)]
  rw [hsqrt]
  norm_num [BB_STD]

theorem dataExit_bb : bbRes (closesOf dataExit) = ⟨Sig.NEUTRO, 0⟩ := by
  unfold bbRes
  rw [show lastD (closesOf dataExit) 0 = (100 : ℚ) from by decide, dataExit_bands]
  unfold analyze_bollinger_signal
  dsimp only
  rw [if_neg (by push_cast; norm_num : ¬ (((100 : ℚ) : ℝ) ≤ 96)),
    if_neg (by push_cast; norm_num : ¬ (((100 : ℚ) : ℝ) ≥ 104)),
    if_pos (by push_cast; norm_num : |((100 : ℚ) : ℝ) - 100| / (104 - 96) < 1/10)]

/-- The exact weighted score of `dataExit` as a rational. -/
theorem dataExit_score :
    integratedScore (closesOf dataExit) =
      ((contrib RSI_WEIGHT (rsiRes (closesOf dataExit)) +
        contrib MACD_WEIGHT (macdRes (closesOf dataExit)) +
        contrib EMA_WEIGHT (emaRes (closesOf dataExit)) : ℚ) : ℝ) := by
  unfold integratedScore
  rw [dataExit_bb, show contribR BB_WEIGHT (⟨Sig.NEUTRO, 0⟩ : IndResR) = 0 from rfl]
  push_cast
  ring

set_option maxRecDepth 8000 in
theorem dataExit_comp :
    calculate_integrated_signal dataExit =
      ⟨Sig.VENDER,
        min (|integratedScore (closesOf dataExit)| * (CONFIDENCE_MULTIPLIER : ℝ)) 1,
        some ⟨rsiRes (closesOf dataExit), macdRes (closesOf dataExit),
          bbRes (closesOf dataExit), emaRes (closesOf dataExit)⟩,
        integratedScore (closesOf dataExit)⟩ := by
  unfold calculate_integrated_signal
  rw [if_neg (by decide : ¬ (dataExit.length < min_required))]
  dsimp only
  rw [if_neg ?hnbuy, if_pos ?hsell]
  case hnbuy =>
    rw [dataExit_score]
    push_neg
    exact_mod_cast (by decide : (contrib RSI_WEIGHT (rsiRes (closesOf dataExit)) +
      contrib MACD_WEIGHT (macdRes (closesOf dataExit)) +
      contrib EMA_WEIGHT (emaRes (closesOf dataExit)) : ℚ) ≤ INTEGRATED_SIGNAL_THRESHOLD_BUY)
  case hsell =>
    rw [dataExit_score]
    exact_mod_cast (by decide : (contrib RSI_WEIGHT (rsiRes (closesOf dataExit)) +
      contrib MACD_WEIGHT (macdRes (closesOf dataExit)) +
      contrib EMA_WEIGHT (emaRes (closesOf dataExit)) : ℚ) < INTEGRATED_SIGNAL_THRESHOLD_SELL)

set_option maxRecDepth 8000 in
/-- The confidence of `dataExit` lies in `[0.4, 0.6)`. -/
theorem dataExit_confidence :
    (EXIT_CONFIDENCE_THRESHOLD : ℝ) ≤ (calculate_integrated_signal dataExit).confidence ∧
    (calculate_integrated_signal dataExit).confidence < (EXIT_CONFIRMATION_THRESHOLD : ℝ) := by
  rw [dataExit_comp]
  dsimp only
  rw [dataExit_score, ← Rat.cast_abs, ← Rat.cast_mul]
  rw [min_eq_left (by
    exact_mod_cast (by decide : (|contrib RSI_WEIGHT (rsiRes (closesOf dataExit)) +
      contrib MACD_WEIGHT (macdRes (closesOf dataExit)) +
      contrib EMA_WEIGHT (emaRes (closesOf dataExit))| * CONFIDENCE_MULTIPLIER : ℚ) ≤ 1))]
  constructor
  · exact_mod_cast (by decide : EXIT_CONFIDENCE_THRESHOLD ≤
      |contrib RSI_WEIGHT (rsiRes (closesOf dataExit)) +
        contrib MACD_WEIGHT (macdRes (closesOf dataExit)) +
        contrib EMA_WEIGHT (emaRes (closesOf dataExit))| * CONFIDENCE_MULTIPLIER)
  · exact_mod_cast (by decide : (|contrib RSI_WEIGHT (rsiRes (closesOf dataExit)) +
      contrib MACD_WEIGHT (macdRes (closesOf dataExit)) +
      contrib EMA_WEIGHT (emaRes (closesOf dataExit))| * CONFIDENCE_MULTIPLIER : ℚ) <
      EXIT_CONFIRMATION_THRESHOLD)

theorem dataExit_suggests :
    signalSuggestsExit (calculate_integrated_signal dataExit) "LONG" := by
  refine Or.inl ⟨rfl, ?_, dataExit_confidence.1⟩
  rw [dataExit_comp]

theorem dataExit_no_momentum : detect_momentum_exhaustion dataExit "LONG" = false := by
  decide

/-! ## C3 — exit conditions are not all independently sufficient -/

open Classical in
/-- C3 (amended): the exit evaluation fires iff either (i) the composite
signal opposes the held side at/above the exit-confidence threshold AND
is confirmed by the momentum-exhaustion heuristic or reaches the higher
exit-confirmation threshold (0.6), or (ii) the composite does not oppose
strongly enough but the RSI-critical condition or the legacy exhaustion
fallback (RSI extremes, momentum exhaustion, or three falling/rising
closes) fires.  An opposing composite in `[0.4, 0.6)` without momentum
confirmation does NOT trigger an exit on its own. -/
theorem C3_exit_conditions (market_data : List MBar) (position_side : String) :
    find_integrated_exhaustion_signal_legacy market_data position_side = true ↔
      ((signalSuggestsExit (calculate_integrated_signal market_data) position_side ∧
        (detect_momentum_exhaustion market_data position_side = true ∨
          (calculate_integrated_signal market_data).confidence ≥
            (EXIT_CONFIRMATION_THRESHOLD : ℝ))) ∨
      (¬ signalSuggestsExit (calculate_integrated_signal market_data) position_side ∧
        (rsiCritical (calculate_integrated_signal market_data) position_side ∨
          find_exhaustion_signal_legacy market_data position_side = true))) := by
  unfold find_integrated_exhaustion_signal_legacy
  dsimp only
  by_cases hsugg : signalSuggestsExit (calculate_integrated_signal market_data) position_side
  · rw [if_pos hsugg]
    by_cases hmom : detect_momentum_exhaustion market_data position_side = true
    · rw [if_pos hmom]
      simp only [true_iff]
      exact Or.inl ⟨hsugg, Or.inl hmom⟩
    · rw [if_neg hmom]
      rw [decide_eq_true_iff]
      constructor
      · intro hc
        exact Or.inl ⟨hsugg, Or.inr hc⟩
      · rintro (⟨_, hmc⟩ | ⟨hns, _⟩)
        · rcases hmc with hm | hc
          · exact absurd hm hmom
          · exact hc
        · exact absurd hsugg hns
  · rw [if_neg hsugg]
    by_cases hcrit : rsiCritical (calculate_integrated_signal market_data) position_side
    · rw [if_pos hcrit]
      simp only [true_iff]
      exact Or.inr ⟨hsugg, Or.inl hcrit⟩
    · rw [if_neg hcrit]
      constructor
      · intro hleg
        exact Or.inr ⟨hsugg, Or.inr hleg⟩
      · rintro (⟨hs, _⟩ | ⟨_, hco⟩)
        · exact absurd hs hsugg
        · rcases hco with hc | hleg
          · exact absurd hc hcrit
          · exact hleg

/-- C3 counterexample: the claim as stated is false — on this input the
composite opposes the held LONG at confidence ≈ 0.49 (at/above the
exit-confidence threshold 0.4), which is condition (a) on its own, yet
the exit evaluation returns `false`: the momentum heuristic does not
confirm and the confidence is below the 0.6 confirmation threshold. -/
theorem C3_exit_conditions_counterexample :
    signalSuggestsExit (calculate_integrated_signal dataExit) "LONG" ∧
    detect_momentum_exhaustion dataExit "LONG" = false ∧
    find_integrated_exhaustion_signal_legacy dataExit "LONG" = false := by
  refine ⟨dataExit_suggests, dataExit_no_momentum, ?_⟩
  unfold find_integrated_exhaustion_signal_legacy
  dsimp only
  have hnm : ¬ (detect_momentum_exhaustion dataExit "LONG" = true) := by
    rw [dataExit_no_momentum]
    exact Bool.false_ne_true
  rw [if_pos dataExit_suggests, if_neg hnm, decide_eq_false_iff_not]
  exact not_le.mpr dataExit_confidence.2

end Claims

end CryptoAI
